import Mathlib

/-!
Verification development for the SnipeIT → NetBox synchronisation engine
(`syncer.py`).  The Python source is shallowly embedded: every dictionary
record becomes a structure, every snapshot a `List`, every API write a value
of an explicit write type, and every place where the Python code can raise
(`None` subscription, failed lookups used unguarded) is modelled with
`Except String`.  Values the code only compares are kept at their source
types (strings, integers as `Nat`, nullable fields as `Option`).

Note: line 576 of `syncer.py` carries a stray closing parenthesis on a
`logging.debug` call; the embedding treats that line as the no-op log
statement it is evidently meant to be.
-/

/-- Model of Python `str.find` index search on character lists:
first index at which `needle` occurs in the remaining hay, else `none`. -/
def pyFindAux (needle : List Char) : List Char → Nat → Option Nat
  | [], i => if needle.isPrefixOf ([] : List Char) then some i else none
  | c :: t, i =>
    if needle.isPrefixOf (c :: t) then some i else pyFindAux needle t (i + 1)

/-- Python `hay.find(needle)`: first index of `needle` in `hay`, `-1` if absent. -/
def pyFind (hay needle : String) : Int :=
  match pyFindAux needle.data hay.data 0 with
  | some i => (i : Int)
  | none => -1

/-- Model of Python `str.rfind` on character lists: highest index at which
`needle` occurs, else `none`. -/
def pyRFindAux (needle : List Char) : List Char → Nat → Option Nat
  | [], i => if needle.isPrefixOf ([] : List Char) then some i else none
  | c :: t, i =>
    match pyRFindAux needle t (i + 1) with
    | some j => some j
    | none => if needle.isPrefixOf (c :: t) then some i else none

/-- Python `hay.rfind(needle)`: highest index of `needle` in `hay`, `-1` if absent. -/
def pyRFind (hay needle : String) : Int :=
  match pyRFindAux needle.data hay.data 0 with
  | some i => (i : Int)
  | none => -1

/-- Python `needle in hay` membership test on strings (substring containment). -/
def pyInStr (needle hay : String) : Bool :=
  pyFind hay needle ≠ -1

/-- Strip the characters of `cs` from both ends of a character list
(model of Python `str.strip("-_")`). -/
def stripChars (cs : List Char) (l : List Char) : List Char :=
  ((l.dropWhile (fun c => c ∈ cs)).reverse.dropWhile (fun c => c ∈ cs)).reverse

/-- Python `str.strip()` with no argument: remove whitespace from both ends. -/
def pyStripWs (s : String) : String :=
  String.mk (((s.data.dropWhile Char.isWhitespace).reverse.dropWhile Char.isWhitespace).reverse)

/-- Replace every maximal run of hyphens/whitespace by a single hyphen
(model of the `re.sub(r"[-\s]+", "-", value)` step of `slugify`).
The boolean records whether the previous character belonged to a run. -/
def collapseDashAux : Bool → List Char → List Char
  | _, [] => []
  | inRun, c :: t =>
    if c = '-' ∨ c.isWhitespace then
      (if inRun then ([] : List Char) else ['-']) ++ collapseDashAux true t
    else
      c :: collapseDashAux false t

/-- `Syncer.slugify`, modelled for ASCII input: the NFKD-normalise /
ascii-encode step drops non-ASCII characters; then lower-case, drop
characters outside `[\w\s-]`, collapse `[-\s]+` to `-`, and strip `-_`
from both ends. -/
def slugify (value : String) : String :=
  let ascii := value.data.filter (fun c => c.toNat < 128)
  let lowered := ascii.map Char.toLower
  let kept := lowered.filter (fun c => c.isAlphanum || c = '_' || c.isWhitespace || c = '-')
  String.mk (stripChars ['-', '_'] (collapseDashAux false kept))

/-- `DEFAULT_SITE_NAME` constant of `syncer.py`. -/
def DEFAULT_SITE_NAME : String := "Default Site"

/-- `Syncer.__gen_update_comment`: append the "Updated …" description and a
parenthesised suffix to the previous comment. -/
def genUpdateComment (desc old suffix : String) : String :=
  old ++ "\r\n\r\n" ++ (desc.replace "Imported" "Updated") ++ " (" ++ suffix ++ ")"

/-- Comment written into freshly created device / device-type records,
embedding the SnipeIT notes field. -/
def createNotesComment (notes : String) : String :=
  "Notes from SnipeIT when initially creating this Netbox Entry. " ++
  "(It will not be Updated on further syncs):\n\n " ++
  (notes.replace "\r\n" "\r\n\r\n")

/-- A nested `{id, name}` reference as found in SnipeIT payloads. -/
structure SRef where
  id : Nat
  name : String
deriving DecidableEq

/-- A SnipeIT company row (`{id, name}`). -/
structure Company where
  id : Nat
  name : String
deriving DecidableEq

/-- A SnipeIT manufacturer row. -/
structure SManufacturer where
  id : Nat
  name : String
deriving DecidableEq

/-- A SnipeIT model row, as read by `sync_models_to_device_types`. -/
structure SModel where
  id : Nat
  name : String
  model_number : String
  notes : String
  manufacturer : SRef
deriving DecidableEq

/-- A SnipeIT location row: `parent` is `null` for top-level locations. -/
structure SLoc where
  id : Nat
  name : String
  parent : Option SRef
deriving DecidableEq

/-- A SnipeIT asset row, restricted to the fields `sync_assets_to_devices`
reads.  `name` may be the empty string; `asset_tag` is required in SnipeIT. -/
structure Asset where
  id : Nat
  name : String
  asset_tag : String
  serial : String
  notes : String
  category : SRef
  modelId : Nat
  location : Option SRef
  rtd_location : Option SRef
  company : Option SRef
deriving DecidableEq

/-- A NetBox tenant, restricted to the fields the syncer reads:
`cf` is the `snipe_object_id` custom field (nullable). -/
structure NbTenant where
  id : Nat
  name : String
  cf : Option Nat
deriving DecidableEq

/-- A NetBox manufacturer as read by the syncer. -/
structure NbManufacturer where
  id : Nat
  name : String
  cf : Option Nat
deriving DecidableEq

/-- A NetBox device type as read by the syncer (`manufacturer` is a nested
dict of which the code reads `id` and `name`). -/
structure NbDeviceType where
  id : Nat
  model : String
  part_number : String
  manufacturerId : Nat
  manufacturerName : String
  comments : String
  cf : Option Nat
deriving DecidableEq

/-- A NetBox site as read by the syncer. -/
structure NbSite where
  id : Nat
  name : String
  comments : String
  cf : Option Nat
deriving DecidableEq

/-- A NetBox location as read by the syncer: `siteId` is `site["id"]`,
`parent` is the nullable parent reference (`parent["id"]` when set). -/
structure NbLocation where
  id : Nat
  name : String
  siteId : Nat
  parent : Option Nat
  cf : Option Nat
deriving DecidableEq

/-- A NetBox device role as read by the syncer. -/
structure NbRole where
  id : Nat
  name : String
  cf : Option Nat
deriving DecidableEq

/-- A NetBox device, restricted to the fields `__update_device` and
`__sync_device` read.  Nullable dict-valued fields (`site`, `tenant`)
keep only the `id` the code subscripts; `name` and `asset_tag` are
nullable in NetBox. -/
structure NbDevice where
  id : Nat
  name : Option String
  asset_tag : Option String
  serial : String
  site : Option Nat
  device_role : Nat
  tenant : Option Nat
  device_type : Nat
  comments : String
  cf : Option Nat
deriving DecidableEq

/-- Lift an optional value into `Except`, modelling a Python `None`
subscription / attribute access error when absent. -/
def fromOpt {α : Type} (o : Option α) (msg : String) : Except String α :=
  match o with
  | some a => .ok a
  | none => .error msg

/-- API write issued by `Syncer.__get_role_from_category`: either stamp the
linkage custom field of an existing role, or create a role (name and slug
only — no custom field is sent). -/
inductive RoleWrite where
  | stamp (id : Nat) (cf : Nat)
  | createRole (name slug : String)
deriving DecidableEq

/-- The category-name truncation at the head of `__get_role_from_category`:
`hypos = category_name.find("-"); if hypos > 1: category_name =
category_name[0:hypos].strip()`. -/
def roleNameOfCategory (categoryName : String) : String :=
  let hypos := pyFind categoryName "-"
  if hypos > 1 then pyStripWs (String.mk (categoryName.data.take hypos.toNat))
  else categoryName

/-- `Syncer.__get_role_from_category`: resolve the device role for an asset's
category against the in-memory role snapshot.  Returns the updated snapshot
(created roles are appended to it), the resolved role, the API writes issued,
and the next fresh NetBox id.  A role created here carries no linkage
custom field (`cf = none`), mirroring the `create(name=…, slug=…)` call. -/
def getRoleFromCategory (netbox_roles : List NbRole) (snipe_asset : Asset)
    (nextId : Nat) : List NbRole × NbRole × List RoleWrite × Nat :=
  let category_name := roleNameOfCategory snipe_asset.category.name
  match netbox_roles.find? (fun i => i.cf = some snipe_asset.category.id) with
  | some role => (netbox_roles, role, [], nextId)
  | none =>
    match netbox_roles.find? (fun i => i.name = category_name) with
    | some role =>
      (netbox_roles, role, [RoleWrite.stamp role.id snipe_asset.category.id], nextId)
    | none =>
      let role : NbRole := ⟨nextId, category_name, none⟩
      (netbox_roles ++ [role], role,
        [RoleWrite.createRole category_name (slugify category_name)], nextId + 1)

/-- The four reconcile actions of the decision table. -/
inductive SyncAction where
  | create
  | link
  | update
  | skip
deriving DecidableEq

/-- EntityMatcher outcome. -/
inductive MatchResult where
  | linked
  | nameMatched
  | notFound
deriving DecidableEq

/-- Modelled from the spec: the §4.2 `ReconcilePolicy.decide` table, used as
the comparand for the refinement claim about the per-kind handlers. -/
def reconcileDecide (m : MatchResult) (diffEmpty : Bool)
    (allow_updates allow_linking : Bool) : SyncAction :=
  match m with
  | .notFound => .create
  | .nameMatched => if allow_linking then .link else .skip
  | .linked => if diffEmpty then .skip else if allow_updates then .update else .skip

/-- API writes a single iteration of `sync_companies_to_tenants` can issue. -/
inductive TenantWrite where
  | create (name slug description : String) (cf : Nat)
  | link (id : Nat) (description : String) (cf : Nat)
  | update (id : Nat) (name slug description : String)
deriving DecidableEq

/-- One iteration of `Syncer.sync_companies_to_tenants`: match by the linkage
custom field, fall back to name, and create / link / update / skip under the
two operator flags. -/
def tenantStep (allow_updates allow_linking : Bool) (desc : String)
    (netbox_tenants : List NbTenant) (c : Company) : List TenantWrite :=
  match netbox_tenants.find? (fun i => i.cf = some c.id) with
  | none =>
    match netbox_tenants.find? (fun i => i.name = c.name) with
    | none => [TenantWrite.create c.name (slugify c.name) desc c.id]
    | some t =>
      if allow_linking then
        [TenantWrite.link t.id (desc.replace "Imported" "Updated") c.id]
      else []
  | some t =>
    if t.name = c.name then []
    else if allow_updates then
      [TenantWrite.update t.id c.name (slugify c.name) (desc.replace "Imported" "Updated")]
    else []

/-- EntityMatcher outcome for companies against the tenant snapshot. -/
def tenantMatch (netbox_tenants : List NbTenant) (c : Company) : MatchResult :=
  if (netbox_tenants.find? (fun i => i.cf = some c.id)).isSome then .linked
  else if (netbox_tenants.find? (fun i => i.name = c.name)).isSome then .nameMatched
  else .notFound

/-- Field diff emptiness for a linked tenant (the code compares `name` only). -/
def tenantDiffEmpty (netbox_tenants : List NbTenant) (c : Company) : Bool :=
  match netbox_tenants.find? (fun i => i.cf = some c.id) with
  | some t => t.name = c.name
  | none => true

/-- Classify a tenant-stage write list as one of the four actions. -/
def tenantActionOf : List TenantWrite → SyncAction
  | [TenantWrite.create _ _ _ _] => .create
  | [TenantWrite.link _ _ _] => .link
  | [TenantWrite.update _ _ _ _] => .update
  | _ => .skip

/-- API writes a single iteration of `sync_manufacturers` can issue. -/
inductive ManufWrite where
  | create (name slug description : String) (cf : Nat)
  | link (id : Nat) (cf : Nat)
  | update (id : Nat) (name slug : String)
deriving DecidableEq

/-- One iteration of `Syncer.sync_manufacturers`. -/
def manufacturerStep (allow_updates allow_linking : Bool) (desc : String)
    (netbox_manufacturers : List NbManufacturer) (m : SManufacturer) :
    List ManufWrite :=
  match netbox_manufacturers.find? (fun i => i.cf = some m.id) with
  | none =>
    match netbox_manufacturers.find? (fun i => i.name = m.name) with
    | none => [ManufWrite.create m.name (slugify m.name) desc m.id]
    | some t => if allow_linking then [ManufWrite.link t.id m.id] else []
  | some t =>
    if t.name = m.name then []
    else if allow_updates then [ManufWrite.update t.id m.name (slugify m.name)]
    else []

/-- EntityMatcher outcome for SnipeIT manufacturers. -/
def manufacturerMatch (netbox_manufacturers : List NbManufacturer)
    (m : SManufacturer) : MatchResult :=
  if (netbox_manufacturers.find? (fun i => i.cf = some m.id)).isSome then .linked
  else if (netbox_manufacturers.find? (fun i => i.name = m.name)).isSome then .nameMatched
  else .notFound

/-- Field diff emptiness for a linked manufacturer. -/
def manufacturerDiffEmpty (netbox_manufacturers : List NbManufacturer)
    (m : SManufacturer) : Bool :=
  match netbox_manufacturers.find? (fun i => i.cf = some m.id) with
  | some t => t.name = m.name
  | none => true

/-- Classify a manufacturer-stage write list. -/
def manufacturerActionOf : List ManufWrite → SyncAction
  | [ManufWrite.create _ _ _ _] => .create
  | [ManufWrite.link _ _] => .link
  | [ManufWrite.update _ _ _] => .update
  | _ => .skip

/-- Incrementally-built update payload of `sync_models_to_device_types`
(`update_obj`): optional keys mirror the dict keys the code may add. -/
structure DtUpdate where
  id : Nat
  model : Option String
  slug : Option String
  part_number : Option String
  manufacturer : Option Nat
  cf : Option Nat
  comments : Option String
deriving DecidableEq

/-- API writes a single iteration of `sync_models_to_device_types` can issue. -/
inductive DtWrite where
  | create (slug description model part_number : String) (manufacturerId : Nat)
      (cf : Nat) (comments : String)
  | upd (u : DtUpdate)
deriving DecidableEq

/-- One iteration of `Syncer.sync_models_to_device_types`.  The manufacturer
is looked up by name; its absence raises (`manuf_by_model.id` on `None`)
exactly where the Python code would: when creating, or when computing the
manufacturer part of the field diff of a linked device type. -/
def devtypeStep (allow_updates allow_linking : Bool) (desc : String)
    (netbox_device_types : List NbDeviceType)
    (netbox_manufacturers : List NbManufacturer) (m : SModel) :
    Except String (List DtWrite) :=
  let manuf_by_model := netbox_manufacturers.find? (fun i => i.name = m.manufacturer.name)
  match netbox_device_types.find? (fun i => i.cf = some m.id) with
  | none =>
    match netbox_device_types.find?
        (fun i => i.model = m.name && i.manufacturerName = m.manufacturer.name) with
    | none => do
      let mb ← fromOpt manuf_by_model "AttributeError: NoneType has no attribute id"
      .ok [DtWrite.create (slugify m.name) desc m.name m.model_number mb.id m.id
        (createNotesComment m.notes)]
    | some p =>
      if allow_linking then
        .ok [DtWrite.upd ⟨p.id, none, none, none, none, some m.id,
          some (genUpdateComment desc p.comments "Snipe ID")⟩]
      else .ok []
  | some p => do
    let dModel := p.model ≠ m.name
    let dPart := p.part_number ≠ m.model_number
    let mb ← fromOpt manuf_by_model "AttributeError: NoneType has no attribute id"
    let dManu := p.manufacturerId ≠ mb.id
    if dModel ∨ dPart ∨ dManu then
      if allow_updates then
        .ok [DtWrite.upd ⟨p.id,
          if dModel then some m.name else none,
          if dModel then some (slugify m.name) else none,
          if dPart then some m.model_number else none,
          if dManu then some mb.id else none,
          none,
          some (genUpdateComment desc p.comments "Values")⟩]
      else .ok []
    else .ok []

/-- EntityMatcher outcome for SnipeIT models against the device-type
snapshot (name match is model name plus manufacturer name). -/
def devtypeMatch (netbox_device_types : List NbDeviceType) (m : SModel) :
    MatchResult :=
  if (netbox_device_types.find? (fun i => i.cf = some m.id)).isSome then .linked
  else if (netbox_device_types.find?
      (fun i => i.model = m.name && i.manufacturerName = m.manufacturer.name)).isSome then
    .nameMatched
  else .notFound

/-- Field diff emptiness for a linked device type, given the manufacturer
record resolved by name. -/
def devtypeDiffEmpty (netbox_device_types : List NbDeviceType)
    (mb : NbManufacturer) (m : SModel) : Bool :=
  match netbox_device_types.find? (fun i => i.cf = some m.id) with
  | some p => p.model = m.name && p.part_number = m.model_number && p.manufacturerId = mb.id
  | none => true

/-- Classify a device-type-stage write list; an update payload carrying the
linkage custom field is the Link action. -/
def devtypeActionOf : List DtWrite → SyncAction
  | [DtWrite.create _ _ _ _ _ _ _] => .create
  | [DtWrite.upd u] => if u.cf.isSome then .link else .update
  | _ => .skip

/-- API writes a single iteration of `sync_top_locations_to_sites` can issue. -/
inductive SiteWrite where
  | create (name slug description status : String) (cf : Nat)
  | link (id : Nat) (comments : String) (cf : Nat)
  | update (id : Nat) (name slug comments : String)
deriving DecidableEq

/-- One iteration of `Syncer.sync_top_locations_to_sites` (the caller has
already filtered to locations with `parent = null`). -/
def siteStep (allow_updates allow_linking : Bool) (desc : String)
    (netbox_sites : List NbSite) (l : SLoc) : List SiteWrite :=
  match netbox_sites.find? (fun i => i.cf = some l.id) with
  | none =>
    match netbox_sites.find? (fun i => i.name = l.name) with
    | none => [SiteWrite.create l.name (slugify l.name) desc "active" l.id]
    | some s =>
      if allow_linking then
        [SiteWrite.link s.id (genUpdateComment desc s.comments "Snipe ID") l.id]
      else []
  | some s =>
    if s.name = l.name then []
    else if allow_updates then
      [SiteWrite.update s.id l.name (slugify l.name)
        (genUpdateComment desc s.comments "Values")]
    else []

/-- EntityMatcher outcome for a top-level location against the site snapshot. -/
def siteMatch (netbox_sites : List NbSite) (l : SLoc) : MatchResult :=
  if (netbox_sites.find? (fun i => i.cf = some l.id)).isSome then .linked
  else if (netbox_sites.find? (fun i => i.name = l.name)).isSome then .nameMatched
  else .notFound

/-- Field diff emptiness for a linked site. -/
def siteDiffEmpty (netbox_sites : List NbSite) (l : SLoc) : Bool :=
  match netbox_sites.find? (fun i => i.cf = some l.id) with
  | some s => s.name = l.name
  | none => true

/-- Classify a site-stage write list. -/
def siteActionOf : List SiteWrite → SyncAction
  | [SiteWrite.create _ _ _ _ _] => .create
  | [SiteWrite.link _ _ _] => .link
  | [SiteWrite.update _ _ _ _] => .update
  | _ => .skip

/-- The parent-chain walk at the head of `Syncer.__sync_location`: starting
from the location's `parent` reference, return the first ancestor linked to a
NetBox site (by the linkage custom field); otherwise step to that ancestor's
own parent via the `locations_with_parents` list (an ancestor absent from
that list has no parent).  `fuel` bounds the iteration of the Python `while`
loop, which the source does not bound. -/
def findOwningSite : Nat → List NbSite → List SLoc → Option SRef → Option NbSite
  | 0, _, _, _ => none
  | Nat.succ fuel, netbox_sites, locations_with_parents, parent =>
    match parent with
    | none => none
    | some p =>
      let site := netbox_sites.find? (fun i => i.cf = some p.id)
      let parent2 :=
        match locations_with_parents.find? (fun i => i.id = p.id) with
        | some it => it.parent
        | none => none
      match site with
      | some s => some s
      | none => findOwningSite fuel netbox_sites locations_with_parents parent2

/-- API writes a single `Syncer.__sync_location` call can issue. -/
inductive LocWrite where
  | create (name slug description status : String) (siteId : Nat) (cf : Nat)
  | link (id : Nat) (cf : Nat)
  | update (id : Nat) (name : String) (siteId : Nat) (slug : String)
deriving DecidableEq

/-- `Syncer.__sync_location`: resolve the owning site by the parent-chain
walk (an unresolvable chain logs an error and returns without any write),
then match the location by linkage key, falling back to name-unique-within-
site, and create / link / update / skip under the flags. -/
def syncLocationStep (allow_updates allow_linking : Bool) (desc : String)
    (netbox_sites : List NbSite) (netbox_locations : List NbLocation)
    (locations_with_parents : List SLoc) (fuel : Nat) (l : SLoc) :
    List LocWrite :=
  match findOwningSite fuel netbox_sites locations_with_parents l.parent with
  | none => []
  | some site =>
    match netbox_locations.find? (fun i => i.cf = some l.id) with
    | none =>
      match netbox_locations.find? (fun i => i.name = l.name && i.siteId = site.id) with
      | none => [LocWrite.create l.name (slugify l.name) desc "active" site.id l.id]
      | some p => if allow_linking then [LocWrite.link p.id l.id] else []
    | some p =>
      if p.name = l.name ∧ p.siteId = site.id then []
      else if allow_updates then
        [LocWrite.update p.id l.name site.id (slugify l.name)]
      else []

/-- EntityMatcher outcome for a nested location, given the resolved owning
site (name uniqueness is constrained to that site). -/
def locationMatch (netbox_locations : List NbLocation) (site : NbSite)
    (l : SLoc) : MatchResult :=
  if (netbox_locations.find? (fun i => i.cf = some l.id)).isSome then .linked
  else if (netbox_locations.find?
      (fun i => i.name = l.name && i.siteId = site.id)).isSome then .nameMatched
  else .notFound

/-- Field diff emptiness for a linked location (name and owning site). -/
def locationDiffEmpty (netbox_locations : List NbLocation) (site : NbSite)
    (l : SLoc) : Bool :=
  match netbox_locations.find? (fun i => i.cf = some l.id) with
  | some p => p.name = l.name && p.siteId = site.id
  | none => true

/-- Classify a location-stage write list. -/
def locationActionOf : List LocWrite → SyncAction
  | [LocWrite.create _ _ _ _ _ _] => .create
  | [LocWrite.link _ _] => .link
  | [LocWrite.update _ _ _ _] => .update
  | _ => .skip

/-- A parent-pointer write collected by `__sync_location_relationships`
(`{"id": …, "parent": …}`). -/
structure LocParentWrite where
  id : Nat
  parent : Nat
deriving DecidableEq

/-- `Syncer.__sync_location_relationships`: against a freshly loaded location
snapshot, each sub-location and its source parent must already be linked
(`assert`, fatal otherwise); reading the stored parent id of a location
whose parent is unset raises a `TypeError`; a differing stored parent is
rewritten only when updates are allowed.  The collected payloads are sent in
one bulk `update` call, here returned as the result list. -/
def locRelFixup (allow_updates : Bool) (netbox_locations : List NbLocation) :
    List SLoc → Except String (List LocParentWrite)
  | [] => .ok []
  | sl :: rest => do
    let loc ← fromOpt (netbox_locations.find? (fun i => i.cf = some sl.id))
      "AssertionError: location not linked"
    let sp ← fromOpt sl.parent "TypeError: parent of source location is null"
    let ploc ← fromOpt (netbox_locations.find? (fun i => i.cf = some sp.id))
      "AssertionError: parent location not linked"
    let storedParent ← fromOpt loc.parent "TypeError: stored parent is null"
    let tail ← locRelFixup allow_updates netbox_locations rest
    if storedParent ≠ ploc.id then
      if allow_updates then .ok (⟨loc.id, ploc.id⟩ :: tail)
      else .ok tail
    else .ok tail

/-- The `site` argument flowing into `__sync_device` / `__update_device`:
either a site dict (of which the code reads `id`) or — when the asset has
neither a resolvable location nor a company — the bare `DEFAULT_SITE_NAME`
string. -/
inductive SiteArg where
  | ref (id : Nat)
  | nm (s : String)
deriving DecidableEq

/-- Python `"id" in nb_site`: key containment on a dict (always true for a
site record, which has an `id` key), substring containment on a string. -/
def siteArgHasIdKey (s : SiteArg) : Bool :=
  match s with
  | .ref _ => true
  | .nm str => pyInStr "id" str

/-- The incrementally-built `update_dict` of `__update_device`: optional
fields mirror the dict keys the code may add (the `name` key may carry the
value `None`, hence `Option (Option String)`). -/
structure DevUpdate where
  id : Nat
  custom_fields : Option Nat
  asset_tag : Option String
  serial : Option String
  site : Option Nat
  device_role : Option Nat
  tenant : Option Nat
  device_type : Option Nat
  name : Option (Option String)
  comments : Option String
deriving DecidableEq

/-- `len(update_dict.values()) > 1`: some key besides `id` is present. -/
def devNontrivial (u : DevUpdate) : Bool :=
  u.custom_fields.isSome || u.asset_tag.isSome || u.serial.isSome || u.site.isSome ||
  u.device_role.isSome || u.tenant.isSome || u.device_type.isSome || u.name.isSome ||
  u.comments.isSome

/-- The nullable-dict subscripts `__update_device` performs while computing
the field diff, evaluated in source order: device `site["id"]`, the site
argument's `["id"]` (a `TypeError` when the argument is the default-site
name string), device `tenant["id"]`, the tenant argument's `["id"]`, and the
device-type argument's `["id"]`. -/
def devSubscripts (nb_device : NbDevice) (nb_site : SiteArg)
    (nb_tenant nb_device_type : Option Nat) :
    Except String (Nat × Nat × Nat × Nat × Nat) := do
  let dSite ← fromOpt nb_device.site "TypeError: device site is null"
  let siteId ← (match nb_site with
    | SiteArg.ref i => Except.ok i
    | SiteArg.nm _ => Except.error "TypeError: string indices must be integers")
  let dTenant ← fromOpt nb_device.tenant "TypeError: device tenant is null"
  let tenantId ← fromOpt nb_tenant "TypeError: tenant argument is null"
  let devTypeId ← fromOpt nb_device_type "TypeError: device type argument is null"
  Except.ok (dSite, siteId, dTenant, tenantId, devTypeId)

/-- The empty-name normalisation of `__update_device`: SnipeIT's empty name
is the empty string, compared as absent (`None`). -/
def checkName (n : String) : Option String :=
  if n.length > 0 then some n else none

/-- The name-conflict-avoidance strip of `__update_device`: when the stored
device name contains the asset tag at an index above 1 (`rfind`), drop the
tag and the separating character that was appended before it. -/
def strippedOldName (stored : Option String) (tag : String) : Option String :=
  match stored with
  | none => none
  | some s =>
    if pyRFind s tag > 1 then
      some (String.mk (s.data.take (pyRFind s tag - 1).toNat))
    else some s

/-- The pure part of `Syncer.__update_device`: given the extracted subscript
values, build the minimal changed-field payload, or `none` when nothing
changed.  `api` stands for the NetBox store queried by the inline
`devices.get(name=…, site_id=…, tenant_id=…)` name-conflict check. -/
def buildDevUpdate (api : List NbDevice) (nb_device : NbDevice)
    (snipe_device : Asset) (nb_role : NbRole)
    (dSite siteId dTenant tenantId devTypeId : Nat)
    (update_custom_field_id : Bool) (desc : String) : Option DevUpdate :=
  let oldname : Option String := strippedOldName nb_device.name snipe_device.asset_tag
  let check_name : Option String := checkName snipe_device.name
  let nameField : Option (Option String) :=
    if oldname ≠ check_name then
      match check_name with
      | none => some none
      | some cn =>
        if api.any (fun x => x.name = some cn ∧ x.site = some siteId ∧ x.tenant = some tenantId)
        then some (some (cn ++ " " ++ snipe_device.asset_tag))
        else some (some snipe_device.name)
    else none
  let u : DevUpdate :=
    { id := nb_device.id
      custom_fields := if update_custom_field_id then some snipe_device.id else none
      asset_tag :=
        if nb_device.asset_tag ≠ some snipe_device.asset_tag then some snipe_device.asset_tag
        else none
      serial := if nb_device.serial ≠ snipe_device.serial then some snipe_device.serial else none
      site := if dSite ≠ siteId then some siteId else none
      device_role := if nb_device.device_role ≠ nb_role.id then some nb_role.id else none
      tenant := if dTenant ≠ tenantId then some tenantId else none
      device_type := if nb_device.device_type ≠ devTypeId then some devTypeId else none
      name := nameField
      comments := none }
  if devNontrivial u then
    some { u with comments := some (genUpdateComment desc nb_device.comments
      (if u.custom_fields.isSome then "Snipe ID" else "Values")) }
  else none

/-- `Syncer.__update_device`: perform the nullable subscripts, then build the
minimal changed-field payload. -/
def updateDevice (api : List NbDevice) (nb_device : NbDevice)
    (snipe_device : Asset) (nb_role : NbRole) (nb_site : SiteArg)
    (nb_tenant : Option Nat) (nb_device_type : Option Nat)
    (update_custom_field_id : Bool) (desc : String) :
    Except String (Option DevUpdate) := do
  let v ← devSubscripts nb_device nb_site nb_tenant nb_device_type
  Except.ok (buildDevUpdate api nb_device snipe_device nb_role
    v.1 v.2.1 v.2.2.1 v.2.2.2.1 v.2.2.2.2 update_custom_field_id desc)

/-- Apply an update payload to one stored device record. -/
def applyDevFields (p : DevUpdate) (d : NbDevice) : NbDevice :=
  { d with
    cf := match p.custom_fields with | some v => some v | none => d.cf
    asset_tag := match p.asset_tag with | some v => some v | none => d.asset_tag
    serial := p.serial.getD d.serial
    site := match p.site with | some v => some v | none => d.site
    device_role := p.device_role.getD d.device_role
    tenant := match p.tenant with | some v => some v | none => d.tenant
    device_type := p.device_type.getD d.device_type
    name := match p.name with | some v => v | none => d.name
    comments := p.comments.getD d.comments }

/-- Apply an update payload to the NetBox store (`dcim.devices.update`). -/
def applyDevUpdate (p : DevUpdate) (l : List NbDevice) : List NbDevice :=
  l.map (fun d => if d.id = p.id then applyDevFields p d else d)

/-- The mutable state of the device stage: the authoritative NetBox store
(`api`), the in-memory snapshot `netbox_devices` loaded at stage start
(updates are NOT reflected into it, created devices ARE appended), and the
fresh-id counter for created records. -/
structure DevState where
  api : List NbDevice
  snap : List NbDevice
  nextId : Nat
deriving DecidableEq

/-- Per-asset foreign keys resolved by `sync_assets_to_devices` before the
device itself is reconciled. -/
structure DevDeps where
  devType : Option Nat
  tenant : Option Nat
  role : NbRole
  siteArg : SiteArg
deriving DecidableEq

/-- The name-and-tenant scan of `__sync_device`: Python evaluates
`nb_tenant["id"]` only once a snapshot device with the right name and a
non-null tenant is reached, raising there when `nb_tenant` is `None`. -/
def findNameTenant (l : List NbDevice) (a : Asset) (nb_tenant : Option Nat) :
    Except String Bool :=
  match l with
  | [] => .ok false
  | d :: rest =>
    if d.name = some a.name then
      if d.tenant.isSome then
        match nb_tenant with
        | none => .error "TypeError: tenant argument is null"
        | some tv =>
          if d.tenant = some tv then .ok true else findNameTenant rest a nb_tenant
      else findNameTenant rest a nb_tenant
    else findNameTenant rest a nb_tenant

/-- Fold an optional update payload into the state (the snapshot is left
stale, mirroring the source). -/
def applyPayOpt (pay : Option DevUpdate) (st : DevState) : DevState :=
  match pay with
  | some p => { st with api := applyDevUpdate p st.api }
  | none => st

/-- The nullable subscripts of the device-create path of `__sync_device`:
`nb_device_type["id"]` while building the payload, and `nb_site["id"]`
when the site argument passes the `"id" in nb_site` containment test (for a
plain string that test is substring containment, and passing it would
subscript the string — a `TypeError`). -/
def createSubscripts (nb_device_type : Option Nat) (nb_site : SiteArg) :
    Except String (Nat × Option Nat) := do
  let devTypeId ← fromOpt nb_device_type "TypeError: device type argument is null"
  let siteField ← (match nb_site with
    | SiteArg.ref i => Except.ok (some i)
    | SiteArg.nm s =>
      if pyInStr "id" s then Except.error "TypeError: string indices must be integers"
      else Except.ok (none : Option Nat))
  Except.ok (devTypeId, siteField)

/-- The device record created by `__sync_device` (`dcim.devices.create`),
stamped with the asset id in the linkage custom field. -/
def newDevice (freshId : Nat) (a : Asset) (dep : DevDeps) (nm : String)
    (devTypeId : Nat) (siteField : Option Nat) : NbDevice :=
  { id := freshId
    name := some nm
    asset_tag := some a.asset_tag
    serial := a.serial
    site := siteField
    device_role := dep.role.id
    tenant := dep.tenant
    device_type := devTypeId
    comments := createNotesComment a.notes
    cf := some a.id }

/-- `Syncer.__sync_device`: linkage-key match (update, no re-stamp), then
asset-tag match (update, stamping the key), then name-and-tenant match
deciding only whether the created device's name gets the asset tag appended;
the created record is appended to both the store and the snapshot. -/
def syncDevice (desc : String) (dep : DevDeps) (a : Asset) (st : DevState) :
    Except String DevState :=
  match st.snap.find? (fun d => d.cf = some a.id) with
  | some d => do
    let pay ← updateDevice st.api d a dep.role dep.siteArg dep.tenant dep.devType false desc
    Except.ok (applyPayOpt pay st)
  | none =>
    match st.snap.find? (fun d => d.asset_tag = some a.asset_tag) with
    | some d => do
      let pay ← updateDevice st.api d a dep.role dep.siteArg dep.tenant dep.devType true desc
      Except.ok (applyPayOpt pay st)
    | none => do
      let hit ← findNameTenant st.snap a dep.tenant
      let cv ← createSubscripts dep.devType dep.siteArg
      let newDev := newDevice st.nextId a dep (if hit then a.name ++ " " ++ a.asset_tag else a.name) cv.1 cv.2
      Except.ok
        { api := st.api ++ [newDev]
          snap := st.snap ++ [newDev]
          nextId := st.nextId + 1 }

/-- The device-stage loop of `sync_assets_to_devices`, with the per-asset
foreign keys given alongside each asset; an exception aborts the stage,
leaving the state already committed (the returned flag records whether the
stage ran to completion). -/
def syncDevices (desc : String) : List (DevDeps × Asset) → DevState → DevState × Bool
  | [], st => (st, true)
  | (dep, a) :: rest, st =>
    match syncDevice desc dep a st with
    | .ok st2 => syncDevices desc rest st2
    | .error _ => (st, false)

/-- The location lookup at the head of each `sync_assets_to_devices`
iteration: `location`, else `rtd_location`, resolved by linkage key against
the location snapshot (an unlinked reference resolves to nothing). -/
def resolveAssetLocation (netbox_locations : List NbLocation) (a : Asset) :
    Option NbLocation :=
  match a.location with
  | some l => netbox_locations.find? (fun i => i.cf = some l.id)
  | none =>
    match a.rtd_location with
    | some r => netbox_locations.find? (fun i => i.cf = some r.id)
    | none => none

/-- The site selection of `sync_assets_to_devices`: the resolved location's
site, else the company-keyword fallback site (`__get_fallback_site`, an
external lookup passed in as a function), else the bare `DEFAULT_SITE_NAME`
string. -/
def resolveSiteArg (netbox_locations : List NbLocation)
    (fallback : String → SiteArg) (a : Asset) : SiteArg :=
  match resolveAssetLocation netbox_locations a with
  | some loc => SiteArg.ref loc.siteId
  | none =>
    match a.company with
    | some c => fallback c.name
    | none => SiteArg.nm DEFAULT_SITE_NAME

/-- `reaches sites lwp k a t`: starting from ancestor reference `a`, the
parent-chain walk takes exactly `k` upward steps to reach ancestor `t`,
with every ancestor strictly before `t` not linked to any NetBox site and
each step resolved through the `locations_with_parents` list exactly as
`__sync_location` resolves it. -/
def reaches (netbox_sites : List NbSite) (lwp : List SLoc) :
    Nat → SRef → SRef → Prop
  | 0, a, t => a = t
  | Nat.succ k, a, t =>
    netbox_sites.find? (fun i => i.cf = some a.id) = none ∧
    ∃ it, lwp.find? (fun i => i.id = a.id) = some it ∧
      ∃ p, it.parent = some p ∧ reaches netbox_sites lwp k p t

/-- Number of devices in a store whose linkage custom field equals `v`. -/
def cfCount (l : List NbDevice) (v : Nat) : Nat :=
  (l.filter (fun d => d.cf = some v)).length

/-- Invariant carried through the device stage: device ids are distinct and
below the fresh-id counter, every linkage-key value is carried by at most one
device, and every linkage-key value in the store either was already there at
stage start (visible in the snapshot on the same device id) or is the id of
an already-processed asset. -/
def DevInv (st : DevState) (processed : List Nat) : Prop :=
  (st.api.map (fun d => d.id)).Nodup ∧
  (∀ d ∈ st.api, d.id < st.nextId) ∧
  (∀ v, cfCount st.api v ≤ 1) ∧
  (∀ d ∈ st.api, ∀ v, d.cf = some v →
    (∃ d2 ∈ st.snap, d2.id = d.id ∧ d2.cf = some v) ∨ v ∈ processed)

/-- C1 (code bug): flag gating is not respected on the device path.  The
model of `__sync_device` / `__update_device` has no `allow_updates`
parameter at all because the source never consults the flag there: a
linkage-key-matched device whose serial differs is updated regardless, and
`__get_role_from_category` stamps a name-matched role's linkage key without
consulting `allow_linking`.  Both writes below are issued under any flag
setting. -/
theorem c1_flag_gating_violation :
    (syncDevice "d" ⟨some 40, some 30, ⟨20, "Laptop", some 5⟩, SiteArg.ref 7⟩
        ⟨1, "PC", "T1", "s", "n", ⟨5, "Laptop"⟩, 3, none, none, none⟩
        ⟨[⟨10, some "PC", some "T1", "OLD", some 7, 20, some 30, 40, "c", some 1⟩],
          [⟨10, some "PC", some "T1", "OLD", some 7, 20, some 30, 40, "c", some 1⟩],
          11⟩).toOption.map
      (fun st => st.api.map (fun d => d.serial)) = some ["s"] ∧
    ("OLD" : String) ≠ "s" ∧
    (getRoleFromCategory [⟨100, "Printer", none⟩]
        ⟨2, "PR", "T2", "s2", "n", ⟨6, "Printer"⟩, 3, none, none, none⟩ 101).2.2.1 =
      [RoleWrite.stamp 100 6] := by decide

/-- C2 (code bug): the full pass is not idempotent.  `__get_role_from_category`
creates roles without stamping the linkage custom field (unlike every other
create in the file), so the first run creates the role with `cf = none` and
the second run — matching by linkage key fails, name match succeeds — issues
a `device_roles.update` stamping call even though the source is unchanged. -/
theorem c2_second_run_role_stamp :
    getRoleFromCategory [] ⟨1, "PC1", "T1", "s", "n", ⟨5, "Laptop"⟩, 3, none, none, none⟩ 100 =
      ([⟨100, "Laptop", none⟩], ⟨100, "Laptop", none⟩,
        [RoleWrite.createRole "Laptop" "laptop"], 101) ∧
    (getRoleFromCategory [⟨100, "Laptop", none⟩]
        ⟨1, "PC1", "T1", "s", "n", ⟨5, "Laptop"⟩, 3, none, none, none⟩ 101).2.2.1 =
      [RoleWrite.stamp 100 5] := by decide

/-- C7 counterexample: the category name is NOT truncated at every hyphen —
`find("-")` must exceed 1.  For category `"a-b"` the hyphen sits at index 1,
so the claim's truncated role name `"a"` is wrong: the created role keeps the
full name `"a-b"`. -/
theorem c7_counterexample :
    (getRoleFromCategory [] ⟨1, "", "T", "s", "n", ⟨5, "a-b"⟩, 3, none, none, none⟩ 100).2.1 =
      (⟨100, "a-b", none⟩ : NbRole) ∧
    pyFind "a-b" "-" = 1 ∧ roleNameOfCategory "a-b" = "a-b" ∧
    (("a-b" : String) ≠ "a") := by decide

/-- C7 amended: the role name is the category name truncated at the first
hyphen only when that hyphen sits at index 2 or later (then trimmed); the
role is matched by linkage key on the category id, else by name; a
name-matched role gets the linkage key stamped; with no match a role is
created carrying only name and slug, no linkage key, and is appended to the
snapshot. -/
theorem c7_role_resolution (roles : List NbRole) (a : Asset) (nid : Nat) (r : NbRole) :
    (roles.find? (fun i => i.cf = some a.category.id) = some r →
      getRoleFromCategory roles a nid = (roles, r, [], nid)) ∧
    (roles.find? (fun i => i.cf = some a.category.id) = none →
      roles.find? (fun i => i.name = roleNameOfCategory a.category.name) = some r →
      getRoleFromCategory roles a nid = (roles, r, [RoleWrite.stamp r.id a.category.id], nid)) ∧
    (roles.find? (fun i => i.cf = some a.category.id) = none →
      roles.find? (fun i => i.name = roleNameOfCategory a.category.name) = none →
      getRoleFromCategory roles a nid =
        (roles ++ [⟨nid, roleNameOfCategory a.category.name, none⟩],
         (⟨nid, roleNameOfCategory a.category.name, none⟩ : NbRole),
         [RoleWrite.createRole (roleNameOfCategory a.category.name)
           (slugify (roleNameOfCategory a.category.name))], nid + 1)) ∧
    (1 < pyFind a.category.name "-" →
      roleNameOfCategory a.category.name =
        pyStripWs (String.mk (a.category.name.data.take (pyFind a.category.name "-").toNat))) ∧
    (pyFind a.category.name "-" ≤ 1 →
      roleNameOfCategory a.category.name = a.category.name) := by
  refine ⟨?_, ?_, ?_, ?_, ?_⟩
  · intro h1
    simp [getRoleFromCategory, h1]
  · intro h1 h2
    simp [getRoleFromCategory, h1, h2]
  · intro h1 h2
    simp [getRoleFromCategory, h1, h2]
  · intro h
    simp only [roleNameOfCategory]
    rw [if_pos h]
  · intro h
    simp only [roleNameOfCategory]
    rw [if_neg (by omega)]

/-- Witness for `c7_role_resolution` at concrete inputs. -/
theorem c7_role_resolution_witness :
    getRoleFromCategory [⟨100, "Laptop", none⟩]
        ⟨1, "", "T", "s", "n", ⟨5, "Laptop - Win"⟩, 3, none, none, none⟩ 101 =
      ([⟨100, "Laptop", none⟩], ⟨100, "Laptop", none⟩, [RoleWrite.stamp 100 5], 101) ∧
    roleNameOfCategory "Laptop - Win" =
      pyStripWs (String.mk (("Laptop - Win" : String).data.take (pyFind "Laptop - Win" "-").toNat)) := by
  have h := c7_role_resolution [⟨100, "Laptop", none⟩]
    ⟨1, "", "T", "s", "n", ⟨5, "Laptop - Win"⟩, 3, none, none, none⟩ 101 ⟨100, "Laptop", none⟩
  exact ⟨h.2.1 (by decide) (by decide), h.2.2.2.1 (by decide)⟩

/-- C6 counterexample: a sub-location whose target and source parent are both
linked, whose stored parent (id 99) differs from the linked parent's target
id (11), yet with `allow_updates = false` the fixup stage issues no parent
write at all — the claim's unconditional "sets the target location's parent
pointer" is false. -/
theorem c6_counterexample :
    locRelFixup false [⟨10, "C", 1, some 99, some 2⟩, ⟨11, "B", 1, some 1, some 3⟩]
      [⟨2, "C", some ⟨3, "B"⟩⟩] = .ok [] ∧ (99 : Nat) ≠ 11 :=
  ⟨rfl, by decide⟩

/-- C6 amended: the fixup stage asserts that the location and its source
parent are linked (fatal otherwise), additionally raises when the stored
parent pointer is null, and rewrites the parent pointer to the parent's
target id only when it differs AND updates are allowed. -/
theorem c6_fixup_amended (au : Bool) (nl : List NbLocation) (sl : SLoc)
    (loc ploc : NbLocation) (sp : SRef) (spid : Nat) :
    (nl.find? (fun i => i.cf = some sl.id) = some loc →
      sl.parent = some sp →
      nl.find? (fun i => i.cf = some sp.id) = some ploc →
      loc.parent = some spid →
      locRelFixup au nl [sl] =
        .ok (if au ∧ spid ≠ ploc.id then [⟨loc.id, ploc.id⟩] else [])) ∧
    (nl.find? (fun i => i.cf = some sl.id) = none →
      locRelFixup au nl [sl] = .error "AssertionError: location not linked") ∧
    (nl.find? (fun i => i.cf = some sl.id) = some loc →
      sl.parent = some sp →
      nl.find? (fun i => i.cf = some sp.id) = none →
      locRelFixup au nl [sl] = .error "AssertionError: parent location not linked") ∧
    (nl.find? (fun i => i.cf = some sl.id) = some loc →
      sl.parent = some sp →
      nl.find? (fun i => i.cf = some sp.id) = some ploc →
      loc.parent = none →
      locRelFixup au nl [sl] = .error "TypeError: stored parent is null") := by
  refine ⟨?_, ?_, ?_, ?_⟩
  · intro h1 h2 h3 h4
    by_cases h5 : spid = ploc.id
    · simp [locRelFixup, h1, h2, h3, h4, fromOpt, h5, Except.bind, bind]
    · cases au with
      | true => simp [locRelFixup, h1, h2, h3, h4, fromOpt, h5, Except.bind, bind]
      | false => simp [locRelFixup, h1, h2, h3, h4, fromOpt, h5, Except.bind, bind]
  · intro h1
    simp [locRelFixup, h1, fromOpt, Except.bind, bind]
  · intro h1 h2 h3
    simp [locRelFixup, h1, h2, h3, fromOpt, Except.bind, bind]
  · intro h1 h2 h3 h4
    simp [locRelFixup, h1, h2, h3, h4, fromOpt, Except.bind, bind]

/-- Witness for `c6_fixup_amended` at concrete inputs: with updates enabled
the differing parent is rewritten; with them disabled nothing is written. -/
theorem c6_fixup_amended_witness :
    locRelFixup true [⟨10, "C", 1, some 99, some 2⟩, ⟨11, "B", 1, some 1, some 3⟩]
      [⟨2, "C", some ⟨3, "B"⟩⟩] = .ok [⟨10, 11⟩] ∧
    locRelFixup false [⟨11, "B", 1, some 1, some 3⟩] [⟨9, "X", some ⟨3, "B"⟩⟩] =
      .error "AssertionError: location not linked" := by
  have h1 := (c6_fixup_amended true
    [⟨10, "C", 1, some 99, some 2⟩, ⟨11, "B", 1, some 1, some 3⟩]
    ⟨2, "C", some ⟨3, "B"⟩⟩ ⟨10, "C", 1, some 99, some 2⟩ ⟨11, "B", 1, some 1, some 3⟩
    ⟨3, "B"⟩ 99).1 (by decide) (by decide) (by decide) (by decide)
  have h2 := (c6_fixup_amended false [⟨11, "B", 1, some 1, some 3⟩]
    ⟨9, "X", some ⟨3, "B"⟩⟩ ⟨11, "B", 1, some 1, some 3⟩ ⟨11, "B", 1, some 1, some 3⟩
    ⟨3, "B"⟩ 99).2.1 (by decide)
  refine ⟨?_, h2⟩
  simpa using h1

/-- C5: the owning site of a nested location is resolved by walking the
parent chain upward — an ancestor chain that takes `k` steps to a linked top
ancestor resolves to exactly that ancestor's linked site (hence any depth
chaining through the same top ancestor yields the same site, and in
particular depth n agrees with depth 1); and when the walk fails the location
handler issues no write at all. -/
theorem c5_owning_site_walk (netbox_sites : List NbSite) (lwp : List SLoc) :
    (∀ (k : Nat) (a t : SRef) (S : NbSite) (fuel : Nat),
      reaches netbox_sites lwp k a t →
      netbox_sites.find? (fun i => i.cf = some t.id) = some S →
      k < fuel →
      findOwningSite fuel netbox_sites lwp (some a) = some S) ∧
    (∀ (au al : Bool) (desc : String) (locs : List NbLocation) (fuel : Nat) (l : SLoc),
      findOwningSite fuel netbox_sites lwp l.parent = none →
      syncLocationStep au al desc netbox_sites locs lwp fuel l = []) := by
  constructor
  · intro k
    induction k with
    | zero =>
      intro a t S fuel hr hS hk
      cases fuel with
      | zero => omega
      | succ f =>
        simp only [reaches] at hr
        subst hr
        simp [findOwningSite, hS]
    | succ k ih =>
      intro a t S fuel hr hS hk
      cases fuel with
      | zero => omega
      | succ f =>
        simp only [reaches] at hr
        obtain ⟨hnone, it, hit, p, hp, hr2⟩ := hr
        have hrec := ih p t S f hr2 hS (by omega)
        simp [findOwningSite, hnone, hit, hp, hrec]
  · intro au al desc locs fuel l h
    simp [syncLocationStep, h]

/-- Witness for `c5_owning_site_walk`: site A is linked to source location
100; B (101) chains to A, C (102) chains through B to A.  The walk from C's
parent (depth 2) and from B's parent (depth 1) return the same site, and a
location whose chain resolves no site yields no write. -/
theorem c5_owning_site_walk_witness :
    findOwningSite 5 [⟨1, "A", "", some 100⟩]
      [⟨101, "B", some ⟨100, "A"⟩⟩, ⟨102, "C", some ⟨101, "B"⟩⟩] (some ⟨101, "B"⟩) =
      some ⟨1, "A", "", some 100⟩ ∧
    findOwningSite 5 [⟨1, "A", "", some 100⟩]
      [⟨101, "B", some ⟨100, "A"⟩⟩, ⟨102, "C", some ⟨101, "B"⟩⟩] (some ⟨100, "A"⟩) =
      some ⟨1, "A", "", some 100⟩ ∧
    syncLocationStep true true "d" [] [] [] 3 ⟨7, "X", some ⟨9, "Y"⟩⟩ = [] := by
  have h := c5_owning_site_walk [⟨1, "A", "", some 100⟩]
    [⟨101, "B", some ⟨100, "A"⟩⟩, ⟨102, "C", some ⟨101, "B"⟩⟩]
  have h0 := c5_owning_site_walk ([] : List NbSite) ([] : List SLoc)
  refine ⟨?_, ?_, ?_⟩
  · refine h.1 1 ⟨101, "B"⟩ ⟨100, "A"⟩ ⟨1, "A", "", some 100⟩ 5 ?_ (by decide) (by decide)
    simp only [reaches]
    exact ⟨by decide, ⟨101, "B", some ⟨100, "A"⟩⟩, by decide, ⟨100, "A"⟩, by decide, rfl⟩
  · exact h.1 0 ⟨100, "A"⟩ ⟨100, "A"⟩ ⟨1, "A", "", some 100⟩ 5 rfl (by decide) (by decide)
  · exact h0.2 true true "d" [] 3 ⟨7, "X", some ⟨9, "Y"⟩⟩ (by decide)

/-- C4: each non-device stage handler (tenant, manufacturer, device type,
site, location) realises exactly the §4.2 decision table: its write list
classifies as `reconcileDecide` of its match result, field-diff emptiness
and the two flags.  The device-type conjunct assumes the model's
manufacturer resolves by name (otherwise the handler raises), the location
conjunct assumes the owning-site walk succeeds (otherwise no write, C5). -/
theorem c4_reconcile_table (au al : Bool) (desc : String)
    (tenants : List NbTenant) (c : Company)
    (manufs : List NbManufacturer) (sm : SManufacturer)
    (dts : List NbDeviceType) (m : SModel) (mb : NbManufacturer)
    (sites : List NbSite) (tl : SLoc)
    (locs : List NbLocation) (lwp : List SLoc) (fuel : Nat) (site : NbSite) (l : SLoc) :
    tenantActionOf (tenantStep au al desc tenants c) =
      reconcileDecide (tenantMatch tenants c) (tenantDiffEmpty tenants c) au al ∧
    manufacturerActionOf (manufacturerStep au al desc manufs sm) =
      reconcileDecide (manufacturerMatch manufs sm) (manufacturerDiffEmpty manufs sm) au al ∧
    (manufs.find? (fun i => i.name = m.manufacturer.name) = some mb →
      (devtypeStep au al desc dts manufs m).map devtypeActionOf =
        .ok (reconcileDecide (devtypeMatch dts m) (devtypeDiffEmpty dts mb m) au al)) ∧
    siteActionOf (siteStep au al desc sites tl) =
      reconcileDecide (siteMatch sites tl) (siteDiffEmpty sites tl) au al ∧
    (findOwningSite fuel sites lwp l.parent = some site →
      locationActionOf (syncLocationStep au al desc sites locs lwp fuel l) =
        reconcileDecide (locationMatch locs site l) (locationDiffEmpty locs site l) au al) := by
  refine ⟨?_, ?_, ?_, ?_, ?_⟩
  · cases h1 : tenants.find? (fun i => i.cf = some c.id) with
    | none =>
      cases h2 : tenants.find? (fun i => i.name = c.name) with
      | none =>
        simp [tenantStep, tenantActionOf, tenantMatch, tenantDiffEmpty, reconcileDecide, h1, h2]
      | some t =>
        cases al <;>
          simp [tenantStep, tenantActionOf, tenantMatch, tenantDiffEmpty, reconcileDecide, h1, h2]
    | some t =>
      by_cases h2 : t.name = c.name
      · simp [tenantStep, tenantActionOf, tenantMatch, tenantDiffEmpty, reconcileDecide, h1, h2]
      · cases au <;>
          simp [tenantStep, tenantActionOf, tenantMatch, tenantDiffEmpty, reconcileDecide, h1, h2]
  · cases h1 : manufs.find? (fun i => i.cf = some sm.id) with
    | none =>
      cases h2 : manufs.find? (fun i => i.name = sm.name) with
      | none =>
        simp [manufacturerStep, manufacturerActionOf, manufacturerMatch, manufacturerDiffEmpty,
          reconcileDecide, h1, h2]
      | some t =>
        cases al <;>
          simp [manufacturerStep, manufacturerActionOf, manufacturerMatch, manufacturerDiffEmpty,
            reconcileDecide, h1, h2]
    | some t =>
      by_cases h2 : t.name = sm.name
      · simp [manufacturerStep, manufacturerActionOf, manufacturerMatch, manufacturerDiffEmpty,
          reconcileDecide, h1, h2]
      · cases au <;>
          simp [manufacturerStep, manufacturerActionOf, manufacturerMatch, manufacturerDiffEmpty,
            reconcileDecide, h1, h2]
  · intro hmb
    cases h1 : dts.find? (fun i => i.cf = some m.id) with
    | none =>
      cases h2 : dts.find?
          (fun i => i.model = m.name && i.manufacturerName = m.manufacturer.name) with
      | none =>
        simp [devtypeStep, devtypeActionOf, devtypeMatch, devtypeDiffEmpty, reconcileDecide,
          h1, h2, hmb, fromOpt, Except.bind, bind, Except.map]
      | some p =>
        cases al <;>
          simp [devtypeStep, devtypeActionOf, devtypeMatch, devtypeDiffEmpty, reconcileDecide,
            h1, h2, hmb, fromOpt, Except.bind, bind, Except.map]
    | some p =>
      by_cases h2 : p.model = m.name <;> by_cases h3 : p.part_number = m.model_number <;>
        by_cases h4 : p.manufacturerId = mb.id <;> cases au <;>
        simp [devtypeStep, devtypeActionOf, devtypeMatch, devtypeDiffEmpty, reconcileDecide,
          h1, h2, h3, h4, hmb, fromOpt, Except.bind, bind, Except.map]
  · cases h1 : sites.find? (fun i => i.cf = some tl.id) with
    | none =>
      cases h2 : sites.find? (fun i => i.name = tl.name) with
      | none =>
        simp [siteStep, siteActionOf, siteMatch, siteDiffEmpty, reconcileDecide, h1, h2]
      | some s =>
        cases al <;>
          simp [siteStep, siteActionOf, siteMatch, siteDiffEmpty, reconcileDecide, h1, h2]
    | some s =>
      by_cases h2 : s.name = tl.name
      · simp [siteStep, siteActionOf, siteMatch, siteDiffEmpty, reconcileDecide, h1, h2]
      · cases au <;>
          simp [siteStep, siteActionOf, siteMatch, siteDiffEmpty, reconcileDecide, h1, h2]
  · intro hsite
    cases h1 : locs.find? (fun i => i.cf = some l.id) with
    | none =>
      cases h2 : locs.find? (fun i => i.name = l.name && i.siteId = site.id) with
      | none =>
        simp [syncLocationStep, locationActionOf, locationMatch, locationDiffEmpty,
          reconcileDecide, hsite, h1, h2]
      | some p =>
        cases al <;>
          simp [syncLocationStep, locationActionOf, locationMatch, locationDiffEmpty,
            reconcileDecide, hsite, h1, h2]
    | some p =>
      by_cases h2 : p.name = l.name <;> by_cases h3 : p.siteId = site.id <;> cases au <;>
        simp [syncLocationStep, locationActionOf, locationMatch, locationDiffEmpty,
          reconcileDecide, hsite, h1, h2, h3]

/-- A needle longer than the remaining hay never matches. -/
theorem pyRFindAux_eq_none_of_lt (needle : List Char) (hne : needle ≠ []) :
    ∀ (hay : List Char) (i : Nat), hay.length < needle.length →
      pyRFindAux needle hay i = none := by
  intro hay
  induction hay with
  | nil =>
    intro i h
    cases needle with
    | nil => simp at hne
    | cons c cs => simp [pyRFindAux, List.isPrefixOf]
  | cons c t ih =>
    intro i h
    have ht : t.length < needle.length := by
      simp only [List.length_cons] at h
      omega
    have hpre : ¬ (needle.isPrefixOf (c :: t) = true) := by
      intro hx
      have hlen := (List.isPrefixOf_iff_prefix.mp hx).length_le
      simp only [List.length_cons] at hlen h
      omega
    simp only [pyRFindAux, ih (i + 1) ht]
    rw [if_neg hpre]

/-- `rfind` locates a needle appended after a prefix exactly at the prefix
length (there is nothing to find beyond it). -/
theorem pyRFindAux_append (needle : List Char) (hne : needle ≠ []) :
    ∀ (pre : List Char) (i : Nat),
      pyRFindAux needle (pre ++ needle) i = some (i + pre.length) := by
  intro pre
  induction pre with
  | nil =>
    intro i
    cases needle with
    | nil => simp at hne
    | cons c cs =>
      have hnone := pyRFindAux_eq_none_of_lt (c :: cs) (by simp) cs (i + 1) (by simp)
      have hpre : (c :: cs).isPrefixOf (c :: cs) = true :=
        List.isPrefixOf_iff_prefix.mpr (List.prefix_refl _)
      simp [pyRFindAux, hnone, hpre]
  | cons c pre ih =>
    intro i
    show pyRFindAux needle (c :: (pre ++ needle)) i = some (i + (pre.length + 1))
    rw [pyRFindAux, ih (i + 1)]
    have : i + 1 + pre.length = i + (pre.length + 1) := by omega
    rw [this]

/-- Python-level corollary: in a stored name of shape `base ⧺ " " ⧺ tag`, the
tag's rightmost occurrence is at index `base.length + 1`. -/
theorem pyRFind_append_tag (b tag : String) (htag : tag.data ≠ []) :
    pyRFind (String.mk (b.data ++ ' ' :: tag.data)) tag = (b.length : Int) + 1 := by
  have h' : pyRFindAux tag.data (String.mk (b.data ++ ' ' :: tag.data)).data 0 =
      some (b.length + 1) := by
    have h := pyRFindAux_append tag.data htag (b.data ++ [' ']) 0
    rw [List.append_assoc] at h
    have hlen : 0 + (b.data ++ [' ']).length = b.length + 1 := by
      rw [List.length_append]
      show 0 + (b.data.length + 1) = b.length + 1
      have hbl : b.length = b.data.length := rfl
      omega
    rw [hlen] at h
    exact h
  unfold pyRFind
  rw [h']
  show ((b.length + 1 : Nat) : Int) = (b.length : Int) + 1
  push_cast
  ring

/-- The strip step recovers the pre-disambiguation base name from a stored
name of shape `base ⧺ " " ⧺ tag` (non-empty base and tag). -/
theorem strippedOldName_append (b tag : String) (htag : tag.data ≠ []) (hb : b.data ≠ []) :
    strippedOldName (some (String.mk (b.data ++ ' ' :: tag.data))) tag = some b := by
  have h := pyRFind_append_tag b tag htag
  have hb1 : 1 ≤ b.length := by
    cases hd : b.data with
    | nil => exact absurd hd hb
    | cons x xs => simp [String.length, hd]
  simp only [strippedOldName]
  rw [h, if_pos (by omega : (1 : Int) < (b.length : Int) + 1)]
  have h2 : ((b.length : Int) + 1 - 1).toNat = b.data.length := by
    have hbl : b.length = b.data.length := rfl
    omega
  rw [h2]
  have h3 : (b.data ++ ' ' :: tag.data).take b.data.length = b.data := List.take_left _ _
  rw [h3]

/-- A produced update payload always carries the device id, and carries the
linkage custom field exactly when stamping was requested — with the asset id
as its value. -/
theorem buildDevUpdate_some_fields (api : List NbDevice) (d : NbDevice) (a : Asset)
    (role : NbRole) (ds si dt ti dtid : Nat) (uc : Bool) (desc : String) (p : DevUpdate)
    (h : buildDevUpdate api d a role ds si dt ti dtid uc desc = some p) :
    p.id = d.id ∧ p.custom_fields = (if uc then some a.id else none) := by
  cases uc with
  | false =>
    simp only [buildDevUpdate, Option.ite_none_right_eq_some] at h
    obtain ⟨hnt, hp⟩ := h
    cases hp
    exact ⟨rfl, rfl⟩
  | true =>
    simp only [buildDevUpdate, Option.ite_none_right_eq_some] at h
    obtain ⟨hnt, hp⟩ := h
    cases hp
    exact ⟨rfl, rfl⟩

/-- With stamping requested the payload is never trivial: the custom-field
key alone makes `len(update_dict.values()) > 1`. -/
theorem buildDevUpdate_true_some (api : List NbDevice) (d : NbDevice) (a : Asset)
    (role : NbRole) (ds si dt ti dtid : Nat) (desc : String) :
    ∃ p, buildDevUpdate api d a role ds si dt ti dtid true desc = some p := by
  simp only [buildDevUpdate]
  split
  · exact ⟨_, rfl⟩
  · rename_i hcontra
    exfalso
    apply hcontra
    simp [devNontrivial]

/-- Successful subscripts for a device with site and tenant set, a site dict
argument, and non-null tenant / device-type arguments. -/
theorem devSubscripts_ok (d : NbDevice) (si : Nat) (ten dtO : Option Nat)
    (ds dt ti dtid : Nat)
    (h1 : d.site = some ds) (h2 : d.tenant = some dt) (h3 : ten = some ti)
    (h4 : dtO = some dtid) :
    devSubscripts d (SiteArg.ref si) ten dtO = .ok (ds, si, dt, ti, dtid) := by
  simp [devSubscripts, h1, h2, h3, h4, fromOpt, Except.bind, bind]

/-- Inversion for a successful `__update_device` call. -/
theorem updateDevice_ok_elim (api : List NbDevice) (d : NbDevice) (a : Asset)
    (role : NbRole) (sa : SiteArg) (ten dtO : Option Nat) (uc : Bool) (desc : String)
    (r : Option DevUpdate) (h : updateDevice api d a role sa ten dtO uc desc = .ok r) :
    ∃ ds si dt ti dtid, devSubscripts d sa ten dtO = .ok (ds, si, dt, ti, dtid) ∧
      r = buildDevUpdate api d a role ds si dt ti dtid uc desc := by
  cases hv : devSubscripts d sa ten dtO with
  | error e =>
    simp [updateDevice, hv, Except.bind, bind] at h
  | ok v =>
    obtain ⟨ds, si, dt, ti, dtid⟩ := v
    simp [updateDevice, hv, Except.bind, bind] at h
    exact ⟨ds, si, dt, ti, dtid, rfl, h.symm⟩

/-- Updates never change device ids. -/
theorem applyDevUpdate_map_id (p : DevUpdate) (l : List NbDevice) :
    (applyDevUpdate p l).map (fun d => d.id) = l.map (fun d => d.id) := by
  simp only [applyDevUpdate, List.map_map]
  apply List.map_congr_left
  intro d _
  by_cases h : d.id = p.id <;> simp [h, applyDevFields]

/-- An update payload without the custom-field key leaves every linkage key
in the store unchanged. -/
theorem applyDevUpdate_map_cf_none (p : DevUpdate) (hp : p.custom_fields = none)
    (l : List NbDevice) :
    (applyDevUpdate p l).map (fun d => d.cf) = l.map (fun d => d.cf) := by
  simp only [applyDevUpdate, List.map_map]
  apply List.map_congr_left
  intro d _
  by_cases h : d.id = p.id <;> simp [h, applyDevFields, hp]

/-- Full inversion of a produced update payload: each optional key is present
exactly when the corresponding field differs, and the name key follows the
strip-compare-disambiguate logic. -/
theorem buildDevUpdate_some_elim (api : List NbDevice) (d : NbDevice) (a : Asset)
    (role : NbRole) (ds si dt ti dtid : Nat) (uc : Bool) (desc : String) (p : DevUpdate)
    (h : buildDevUpdate api d a role ds si dt ti dtid uc desc = some p) :
    p.id = d.id ∧ p.custom_fields = (if uc then some a.id else none) ∧
    (p.asset_tag.isSome ↔ d.asset_tag ≠ some a.asset_tag) ∧
    (p.serial.isSome ↔ d.serial ≠ a.serial) ∧
    (p.site.isSome ↔ ds ≠ si) ∧
    (p.device_role.isSome ↔ d.device_role ≠ role.id) ∧
    (p.tenant.isSome ↔ dt ≠ ti) ∧
    (p.device_type.isSome ↔ d.device_type ≠ dtid) ∧
    p.name = (if strippedOldName d.name a.asset_tag ≠ checkName a.name then
      (match checkName a.name with
       | none => some none
       | some cn =>
         if api.any (fun x => x.name = some cn ∧ x.site = some si ∧ x.tenant = some ti)
         then some (some (cn ++ " " ++ a.asset_tag))
         else some (some a.name))
      else none) := by
  cases uc with
  | false =>
    simp only [buildDevUpdate, Option.ite_none_right_eq_some] at h
    obtain ⟨hnt, hp⟩ := h
    cases hp
    refine ⟨rfl, rfl, ?_, ?_, ?_, ?_, ?_, ?_, rfl⟩
    · by_cases hc : d.asset_tag = some a.asset_tag <;> simp [hc]
    · by_cases hc : d.serial = a.serial <;> simp [hc]
    · by_cases hc : ds = si <;> simp [hc]
    · by_cases hc : d.device_role = role.id <;> simp [hc]
    · by_cases hc : dt = ti <;> simp [hc]
    · by_cases hc : d.device_type = dtid <;> simp [hc]
  | true =>
    simp only [buildDevUpdate, Option.ite_none_right_eq_some] at h
    obtain ⟨hnt, hp⟩ := h
    cases hp
    refine ⟨rfl, rfl, ?_, ?_, ?_, ?_, ?_, ?_, rfl⟩
    · by_cases hc : d.asset_tag = some a.asset_tag <;> simp [hc]
    · by_cases hc : d.serial = a.serial <;> simp [hc]
    · by_cases hc : ds = si <;> simp [hc]
    · by_cases hc : d.device_role = role.id <;> simp [hc]
    · by_cases hc : dt = ti <;> simp [hc]
    · by_cases hc : d.device_type = dtid <;> simp [hc]

/-- Linkage-key-matched devices take the update path with no re-stamp. -/
theorem syncDevice_keymatch (desc : String) (dep : DevDeps) (a : Asset) (st : DevState)
    (d : NbDevice) (v : Nat × Nat × Nat × Nat × Nat)
    (hfind : st.snap.find? (fun x => x.cf = some a.id) = some d)
    (hsub : devSubscripts d dep.siteArg dep.tenant dep.devType = .ok v) :
    syncDevice desc dep a st =
      .ok (applyPayOpt (buildDevUpdate st.api d a dep.role
        v.1 v.2.1 v.2.2.1 v.2.2.2.1 v.2.2.2.2 false desc) st) := by
  simp [syncDevice, hfind, updateDevice, hsub, Except.bind, bind]

/-- Tag-matched devices take the update path with the linkage key stamped. -/
theorem syncDevice_tagmatch (desc : String) (dep : DevDeps) (a : Asset) (st : DevState)
    (d : NbDevice) (v : Nat × Nat × Nat × Nat × Nat)
    (h1 : st.snap.find? (fun x => x.cf = some a.id) = none)
    (h2 : st.snap.find? (fun x => x.asset_tag = some a.asset_tag) = some d)
    (hsub : devSubscripts d dep.siteArg dep.tenant dep.devType = .ok v) :
    syncDevice desc dep a st =
      .ok (applyPayOpt (buildDevUpdate st.api d a dep.role
        v.1 v.2.1 v.2.2.1 v.2.2.2.1 v.2.2.2.2 true desc) st) := by
  simp [syncDevice, h1, h2, updateDevice, hsub, Except.bind, bind]

/-- Unmatched assets create a device, disambiguating the name exactly when
the name-and-tenant scan found a hit. -/
theorem syncDevice_create (desc : String) (dep : DevDeps) (a : Asset) (st : DevState)
    (hit : Bool) (dtid : Nat) (sf : Option Nat)
    (h1 : st.snap.find? (fun x => x.cf = some a.id) = none)
    (h2 : st.snap.find? (fun x => x.asset_tag = some a.asset_tag) = none)
    (h3 : findNameTenant st.snap a dep.tenant = .ok hit)
    (h4 : createSubscripts dep.devType dep.siteArg = .ok (dtid, sf)) :
    syncDevice desc dep a st = .ok
      { api := st.api ++ [newDevice st.nextId a dep
          (if hit then a.name ++ " " ++ a.asset_tag else a.name) dtid sf]
        snap := st.snap ++ [newDevice st.nextId a dep
          (if hit then a.name ++ " " ++ a.asset_tag else a.name) dtid sf]
        nextId := st.nextId + 1 } := by
  simp [syncDevice, h1, h2, h3, h4, Except.bind, bind]

/-- C9: for a source asset with an empty name matched by linkage key, the
update payload carries — besides the mandatory id and the audit comment —
only the attributes among tag, serial, site, role, tenant and device type
that differ from the stored device (each key present iff its field differs),
the linkage key is not re-stamped, the stored name is compared after
stripping a previously-appended asset-tag suffix, and the name key is never
set to any string (in particular not the empty source name): it is either
absent or null. -/
theorem c9_empty_name_update (desc : String) (dep : DevDeps) (a : Asset) (st : DevState)
    (d : NbDevice) (ds si dt ti dtid : Nat)
    (hfind : st.snap.find? (fun x => x.cf = some a.id) = some d)
    (hname : a.name = "")
    (hsite : d.site = some ds) (hsa : dep.siteArg = SiteArg.ref si)
    (hten : d.tenant = some dt) (htenArg : dep.tenant = some ti)
    (hdt : dep.devType = some dtid) :
    syncDevice desc dep a st =
      .ok (applyPayOpt (buildDevUpdate st.api d a dep.role ds si dt ti dtid false desc) st) ∧
    (∀ p, buildDevUpdate st.api d a dep.role ds si dt ti dtid false desc = some p →
      p.custom_fields = none ∧
      (p.asset_tag.isSome ↔ d.asset_tag ≠ some a.asset_tag) ∧
      (p.serial.isSome ↔ d.serial ≠ a.serial) ∧
      (p.site.isSome ↔ ds ≠ si) ∧
      (p.device_role.isSome ↔ d.device_role ≠ dep.role.id) ∧
      (p.tenant.isSome ↔ dt ≠ ti) ∧
      (p.device_type.isSome ↔ d.device_type ≠ dtid) ∧
      p.name = (if strippedOldName d.name a.asset_tag = none then none else some none) ∧
      (∀ s : String, p.name ≠ some (some s))) ∧
    (a.asset_tag.data ≠ [] → ∀ bs : String, bs.data ≠ [] →
      d.name = some (String.mk (bs.data ++ ' ' :: a.asset_tag.data)) →
      strippedOldName d.name a.asset_tag = some bs) := by
  refine ⟨?_, ?_, ?_⟩
  · have hsub := devSubscripts_ok d si dep.tenant dep.devType ds dt ti dtid hsite hten htenArg hdt
    rw [← hsa] at hsub
    exact syncDevice_keymatch desc dep a st d (ds, si, dt, ti, dtid) hfind hsub
  · intro p hp
    obtain ⟨hid, hcf, htag, hser, hsit, hrol, hten2, hdt2, hnm⟩ :=
      buildDevUpdate_some_elim st.api d a dep.role ds si dt ti dtid false desc p hp
    have hcn : checkName a.name = none := by rw [hname]; rfl
    rw [hcn] at hnm
    refine ⟨by simpa using hcf, htag, hser, hsit, hrol, hten2, hdt2, ?_, ?_⟩
    · rw [hnm]
      by_cases hs : strippedOldName d.name a.asset_tag = none <;> simp [hs]
    · intro s
      rw [hnm]
      by_cases hs : strippedOldName d.name a.asset_tag = none <;> simp [hs]
  · intro htag bs hbs hdn
    rw [hdn]
    exact strippedOldName_append bs a.asset_tag htag hbs

/-- C10: an asset with no company whose location references do not resolve
gets the bare `DEFAULT_SITE_NAME` string as its site value; since `"id"` is
not a substring of that string, the `"id" in nb_site` test fails and the
created device payload carries no site at all. -/
theorem c10_default_site_passthrough (netbox_locations : List NbLocation)
    (fallback : String → SiteArg) (desc : String) (dep : DevDeps) (a : Asset)
    (st : DevState) (hit : Bool) (dtid : Nat)
    (hloc : resolveAssetLocation netbox_locations a = none)
    (hcomp : a.company = none)
    (hsa : dep.siteArg = SiteArg.nm DEFAULT_SITE_NAME)
    (hdt : dep.devType = some dtid)
    (h1 : st.snap.find? (fun x => x.cf = some a.id) = none)
    (h2 : st.snap.find? (fun x => x.asset_tag = some a.asset_tag) = none)
    (h3 : findNameTenant st.snap a dep.tenant = .ok hit) :
    resolveSiteArg netbox_locations fallback a = SiteArg.nm DEFAULT_SITE_NAME ∧
    siteArgHasIdKey (SiteArg.nm DEFAULT_SITE_NAME) = false ∧
    syncDevice desc dep a st = .ok
      { api := st.api ++ [newDevice st.nextId a dep
          (if hit then a.name ++ " " ++ a.asset_tag else a.name) dtid none]
        snap := st.snap ++ [newDevice st.nextId a dep
          (if hit then a.name ++ " " ++ a.asset_tag else a.name) dtid none]
        nextId := st.nextId + 1 } ∧
    (newDevice st.nextId a dep
      (if hit then a.name ++ " " ++ a.asset_tag else a.name) dtid none).site = none := by
  have hin : pyInStr "id" DEFAULT_SITE_NAME = false := by decide
  refine ⟨?_, by decide, ?_, rfl⟩
  · simp [resolveSiteArg, hloc, hcomp]
  · have hcs : createSubscripts dep.devType dep.siteArg = .ok (dtid, none) := by
      simp [createSubscripts, hdt, hsa, hin, fromOpt, Except.bind, bind]
    exact syncDevice_create desc dep a st hit dtid none h1 h2 h3 hcs

/-- Witness for `c10_default_site_passthrough`: an asset with an unlinked
location reference and no company creates a siteless device. -/
theorem c10_default_site_passthrough_witness :
    resolveSiteArg [] (fun _ => SiteArg.ref 0)
      ⟨1, "PC", "T1", "s", "n", ⟨5, "Cat"⟩, 3, some ⟨50, "L"⟩, none, none⟩ =
      SiteArg.nm DEFAULT_SITE_NAME ∧
    syncDevice "d" ⟨some 40, none, ⟨20, "R", some 5⟩, SiteArg.nm DEFAULT_SITE_NAME⟩
      ⟨1, "PC", "T1", "s", "n", ⟨5, "Cat"⟩, 3, some ⟨50, "L"⟩, none, none⟩
      ⟨[], [], 11⟩ = .ok
      { api := [newDevice 11 ⟨1, "PC", "T1", "s", "n", ⟨5, "Cat"⟩, 3, some ⟨50, "L"⟩, none, none⟩
          ⟨some 40, none, ⟨20, "R", some 5⟩, SiteArg.nm DEFAULT_SITE_NAME⟩ "PC" 40 none]
        snap := [newDevice 11 ⟨1, "PC", "T1", "s", "n", ⟨5, "Cat"⟩, 3, some ⟨50, "L"⟩, none, none⟩
          ⟨some 40, none, ⟨20, "R", some 5⟩, SiteArg.nm DEFAULT_SITE_NAME⟩ "PC" 40 none]
        nextId := 12 } ∧
    (newDevice 11 ⟨1, "PC", "T1", "s", "n", ⟨5, "Cat"⟩, 3, some ⟨50, "L"⟩, none, none⟩
      ⟨some 40, none, ⟨20, "R", some 5⟩, SiteArg.nm DEFAULT_SITE_NAME⟩ "PC" 40 none).site = none := by
  have h := c10_default_site_passthrough [] (fun _ => SiteArg.ref 0) "d"
    ⟨some 40, none, ⟨20, "R", some 5⟩, SiteArg.nm DEFAULT_SITE_NAME⟩
    ⟨1, "PC", "T1", "s", "n", ⟨5, "Cat"⟩, 3, some ⟨50, "L"⟩, none, none⟩
    ⟨[], [], 11⟩ false 40 (by decide) rfl rfl rfl (by decide) (by decide) rfl
  exact ⟨h.1, by simpa using h.2.2.1, h.2.2.2⟩

/-- C8 counterexample: device 10 already carries linkage key 77; asset 9 has
the same asset tag, so the tag-match path stamps linkage key 9 over 77 — the
linkage key IS overwritten with a different source id. -/
theorem c8_counterexample :
    (syncDevice "d" ⟨some 40, some 30, ⟨20, "R", some 5⟩, SiteArg.ref 7⟩
        ⟨9, "PC", "T1", "s", "n", ⟨5, "Cat"⟩, 3, none, none, none⟩
        ⟨[⟨10, some "PC", some "T1", "s", some 7, 20, some 30, 40, "c", some 77⟩],
         [⟨10, some "PC", some "T1", "s", some 7, 20, some 30, 40, "c", some 77⟩],
         11⟩).toOption.map
      (fun st => st.api.map (fun x => x.cf)) = some [some 9] ∧ (77 : Nat) ≠ 9 := by decide

/-- `cfCount` through the linkage-key projection. -/
theorem cfCount_eq_map (l : List NbDevice) (v : Nat) :
    cfCount l v = (l.map (fun d2 => d2.cf)).countP (fun o => o = some v) := by
  rw [cfCount, ← List.countP_eq_length_filter, List.countP_map]
  rfl

/-- Device stores with the same linkage-key column have the same counts. -/
theorem cfCount_congr (l1 l2 : List NbDevice) (v : Nat)
    (h : l1.map (fun d2 => d2.cf) = l2.map (fun d2 => d2.cf)) :
    cfCount l1 v = cfCount l2 v := by
  rw [cfCount_eq_map, cfCount_eq_map, h]

/-- At most one device carries a given id when the id column is duplicate-free. -/
theorem countP_id_le_one (l : List NbDevice) (h : (l.map (fun d2 => d2.id)).Nodup)
    (x : Nat) : l.countP (fun d2 => d2.id = x) ≤ 1 := by
  have h1 := List.nodup_iff_count_le_one.mp h x
  rw [List.count_eq_countP, List.countP_map] at h1
  calc l.countP (fun d2 => d2.id = x)
      = l.countP ((fun y => y == x) ∘ (fun d2 => d2.id)) := by
        apply List.countP_congr
        intro d _
        simp
    _ ≤ 1 := h1

/-- Monotonicity of the invariant in the processed-id list. -/
theorem devInv_weaken (st : DevState) (P Q : List Nat) (h : DevInv st P)
    (hPQ : ∀ v ∈ P, v ∈ Q) : DevInv st Q := by
  obtain ⟨h1, h2, h3, h4⟩ := h
  refine ⟨h1, h2, h3, ?_⟩
  intro d hd v hv
  rcases h4 d hd v hv with hsnap | hP
  · exact Or.inl hsnap
  · exact Or.inr (hPQ v hP)

/-- If the snapshot scan for a fresh asset id found nothing, no device in the
store carries that id as linkage key. -/
theorem api_cf_fresh (st : DevState) (P : List Nat) (a : Asset) (hinv : DevInv st P)
    (hfresh : a.id ∉ P)
    (hsnapnone : st.snap.find? (fun x => x.cf = some a.id) = none) :
    ∀ d ∈ st.api, d.cf ≠ some a.id := by
  intro d hd hcf
  rcases hinv.2.2.2 d hd a.id hcf with ⟨d2, hd2, _, hcf2⟩ | hP
  · have hnone := List.find?_eq_none.mp hsnapnone d2 hd2
    simp [hcf2] at hnone
  · exact hfresh hP

/-- An update carrying no linkage-key write preserves the device-stage
invariant (the processed list may grow). -/
theorem devInv_update_nostamp (st : DevState) (P : List Nat) (w : Nat) (p : DevUpdate)
    (hinv : DevInv st P) (hcf : p.custom_fields = none) :
    DevInv { st with api := applyDevUpdate p st.api } (P ++ [w]) := by
  obtain ⟨h1, h2, h3, h4⟩ := hinv
  refine ⟨?_, ?_, ?_, ?_⟩
  · show ((applyDevUpdate p st.api).map (fun d2 => d2.id)).Nodup
    rw [applyDevUpdate_map_id]
    exact h1
  · intro d2 hd2
    show d2.id < st.nextId
    rw [applyDevUpdate] at hd2
    obtain ⟨d, hd, hde⟩ := List.mem_map.mp hd2
    have hid : d2.id = d.id := by
      subst hde
      by_cases hc : d.id = p.id <;> simp [hc, applyDevFields]
    rw [hid]
    exact h2 d hd
  · intro v
    show cfCount (applyDevUpdate p st.api) v ≤ 1
    rw [cfCount_congr (applyDevUpdate p st.api) st.api v (applyDevUpdate_map_cf_none p hcf st.api)]
    exact h3 v
  · intro d2 hd2 v hv
    rw [applyDevUpdate] at hd2
    obtain ⟨d, hd, hde⟩ := List.mem_map.mp hd2
    have hcfeq : d2.cf = d.cf := by
      subst hde
      by_cases hc : d.id = p.id <;> simp [hc, applyDevFields, hcf]
    have hid : d2.id = d.id := by
      subst hde
      by_cases hc : d.id = p.id <;> simp [hc, applyDevFields]
    rcases h4 d hd v (by rw [← hcfeq]; exact hv) with ⟨d3, hd3, hid3, hcf3⟩ | hP
    · exact Or.inl ⟨d3, hd3, by rw [hid]; exact hid3, hcf3⟩
    · exact Or.inr (List.mem_append_left _ hP)

/-- Stamping the linkage key of a (tag- or name-) matched device with a fresh
asset id preserves the invariant. -/
theorem devInv_update_stamp (st : DevState) (P : List Nat) (a : Asset) (p : DevUpdate)
    (hinv : DevInv st P) (hfresh : a.id ∉ P)
    (hcf : p.custom_fields = some a.id)
    (hsnapnone : st.snap.find? (fun x => x.cf = some a.id) = none) :
    DevInv { st with api := applyDevUpdate p st.api } (P ++ [a.id]) := by
  have hzero := api_cf_fresh st P a hinv hfresh hsnapnone
  obtain ⟨h1, h2, h3, h4⟩ := hinv
  refine ⟨?_, ?_, ?_, ?_⟩
  · show ((applyDevUpdate p st.api).map (fun d2 => d2.id)).Nodup
    rw [applyDevUpdate_map_id]
    exact h1
  · intro d2 hd2
    show d2.id < st.nextId
    rw [applyDevUpdate] at hd2
    obtain ⟨d, hd, hde⟩ := List.mem_map.mp hd2
    have hid : d2.id = d.id := by
      subst hde
      by_cases hc : d.id = p.id <;> simp [hc, applyDevFields]
    rw [hid]
    exact h2 d hd
  · intro v
    show cfCount (applyDevUpdate p st.api) v ≤ 1
    rw [cfCount, ← List.countP_eq_length_filter, applyDevUpdate, List.countP_map]
    by_cases hv : v = a.id
    · subst hv
      have hle : List.countP
          ((fun d2 => decide (d2.cf = some a.id)) ∘
            (fun d => if d.id = p.id then applyDevFields p d else d)) st.api ≤
          List.countP (fun d2 => d2.id = p.id) st.api := by
        apply List.countP_mono_left
        intro d hd hpd
        by_cases hc : d.id = p.id
        · simpa using hc
        · exfalso
          simp only [Function.comp, hc, if_false, decide_eq_true_eq] at hpd
          exact hzero d hd hpd
      exact le_trans hle (countP_id_le_one st.api h1 p.id)
    · have hle : List.countP
          ((fun d2 => decide (d2.cf = some v)) ∘
            (fun d => if d.id = p.id then applyDevFields p d else d)) st.api ≤
          List.countP (fun d2 => d2.cf = some v) st.api := by
        apply List.countP_mono_left
        intro d hd hpd
        by_cases hc : d.id = p.id
        · exfalso
          simp only [Function.comp, hc, if_true, decide_eq_true_eq] at hpd
          rw [show (applyDevFields p d).cf = some a.id by simp [applyDevFields, hcf]] at hpd
          exact hv (by injection hpd; omega)
        · simp only [Function.comp, hc, if_false, decide_eq_true_eq] at hpd
          simpa using hpd
      have heq : List.countP (fun d2 => d2.cf = some v) st.api = cfCount st.api v := by
        rw [cfCount, ← List.countP_eq_length_filter]
      exact le_trans hle (heq ▸ h3 v)
  · intro d2 hd2 v hv
    rw [applyDevUpdate] at hd2
    obtain ⟨d, hd, hde⟩ := List.mem_map.mp hd2
    by_cases hc : d.id = p.id
    · have hcfeq : d2.cf = some a.id := by
        subst hde
        simp [hc, applyDevFields, hcf]
      rw [hcfeq] at hv
      have : v = a.id := by injection hv with h; omega
      subst this
      exact Or.inr (List.mem_append_right _ (by simp))
    · have hcfeq : d2.cf = d.cf := by
        subst hde
        simp [hc]
      have hid : d2.id = d.id := by
        subst hde
        simp [hc]
      rcases h4 d hd v (by rw [← hcfeq]; exact hv) with ⟨d3, hd3, hid3, hcf3⟩ | hP
      · exact Or.inl ⟨d3, hd3, by rw [hid]; exact hid3, hcf3⟩
      · exact Or.inr (List.mem_append_left _ hP)

/-- Creating a device stamped with a fresh asset id preserves the invariant. -/
theorem devInv_create (st : DevState) (P : List Nat) (a : Asset) (nd : NbDevice)
    (hinv : DevInv st P) (hfresh : a.id ∉ P)
    (hndcf : nd.cf = some a.id) (hndid : nd.id = st.nextId)
    (hsnapnone : st.snap.find? (fun x => x.cf = some a.id) = none) :
    DevInv ⟨st.api ++ [nd], st.snap ++ [nd], st.nextId + 1⟩ (P ++ [a.id]) := by
  have hzero := api_cf_fresh st P a hinv hfresh hsnapnone
  obtain ⟨h1, h2, h3, h4⟩ := hinv
  refine ⟨?_, ?_, ?_, ?_⟩
  · show ((st.api ++ [nd]).map (fun d2 => d2.id)).Nodup
    rw [List.map_append, List.nodup_append]
    refine ⟨h1, by simp, ?_⟩
    intro x hx
    obtain ⟨d, hd, hde⟩ := List.mem_map.mp hx
    have hlt := h2 d hd
    simp only [List.map_cons, List.map_nil, List.mem_singleton]
    rw [← hde, hndid]
    omega
  · intro d2 hd2
    show d2.id < st.nextId + 1
    rcases List.mem_append.mp hd2 with hmem | hmem
    · have := h2 d2 hmem
      omega
    · have heq : d2 = nd := by simpa using hmem
      subst heq
      rw [hndid]
      omega
  · intro v
    show cfCount (st.api ++ [nd]) v ≤ 1
    rw [cfCount, List.filter_append, List.length_append]
    by_cases hv : v = a.id
    · subst hv
      have hz : (st.api.filter (fun d2 => d2.cf = some a.id)).length = 0 := by
        rw [List.length_eq_zero, List.filter_eq_nil_iff]
        intro d hd
        simpa using hzero d hd
      have hone : ([nd].filter (fun d2 => d2.cf = some a.id)).length ≤ 1 :=
        le_trans (List.length_filter_le _ _) (by simp)
      omega
    · have hnd0 : ([nd].filter (fun d2 => d2.cf = some v)).length = 0 := by
        have : ¬ (nd.cf = some v) := by
          rw [hndcf]
          intro hx
          exact hv (by injection hx with h; omega)
        simp [List.filter, this]
      have := h3 v
      rw [cfCount] at this
      omega
  · intro d2 hd2 v hv
    rcases List.mem_append.mp hd2 with hmem | hmem
    · rcases h4 d2 hmem v hv with ⟨d3, hd3, hid3, hcf3⟩ | hP
      · exact Or.inl ⟨d3, List.mem_append_left _ hd3, hid3, hcf3⟩
      · exact Or.inr (List.mem_append_left _ hP)
    · have heq : d2 = nd := by simpa using hmem
      subst heq
      rw [hndcf] at hv
      have : v = a.id := by injection hv with h; omega
      subst this
      exact Or.inr (List.mem_append_right _ (by simp))

/-- One `__sync_device` step preserves the device-stage invariant, recording
the processed asset id. -/
theorem devInv_syncDevice (desc : String) (dep : DevDeps) (a : Asset)
    (st st2 : DevState) (P : List Nat)
    (hinv : DevInv st P) (hfresh : a.id ∉ P)
    (hok : syncDevice desc dep a st = .ok st2) :
    DevInv st2 (P ++ [a.id]) := by
  cases hfind : st.snap.find? (fun x => x.cf = some a.id) with
  | some d =>
    cases hud : updateDevice st.api d a dep.role dep.siteArg dep.tenant dep.devType false desc with
    | error e => simp [syncDevice, hfind, hud, Except.bind, bind] at hok
    | ok pay =>
      have hst2 : st2 = applyPayOpt pay st := by
        simp [syncDevice, hfind, hud, Except.bind, bind] at hok
        exact hok.symm
      subst hst2
      cases pay with
      | none => exact devInv_weaken st P _ hinv (fun v hv => List.mem_append_left _ hv)
      | some p =>
        obtain ⟨ds, si, dt, ti, dtid, hsub, hpay⟩ :=
          updateDevice_ok_elim st.api d a dep.role dep.siteArg dep.tenant dep.devType
            false desc (some p) hud
        have hcf := (buildDevUpdate_some_fields st.api d a dep.role ds si dt ti dtid
          false desc p hpay.symm).2
        exact devInv_update_nostamp st P a.id p ⟨hinv.1, hinv.2.1, hinv.2.2.1, hinv.2.2.2⟩
          (by simpa using hcf)
  | none =>
    cases hfind2 : st.snap.find? (fun x => x.asset_tag = some a.asset_tag) with
    | some d =>
      cases hud : updateDevice st.api d a dep.role dep.siteArg dep.tenant dep.devType true desc with
      | error e => simp [syncDevice, hfind, hfind2, hud, Except.bind, bind] at hok
      | ok pay =>
        have hst2 : st2 = applyPayOpt pay st := by
          simp [syncDevice, hfind, hfind2, hud, Except.bind, bind] at hok
          exact hok.symm
        subst hst2
        obtain ⟨ds, si, dt, ti, dtid, hsub, hpay⟩ :=
          updateDevice_ok_elim st.api d a dep.role dep.siteArg dep.tenant dep.devType
            true desc pay hud
        cases pay with
        | none =>
          obtain ⟨p, hp⟩ := buildDevUpdate_true_some st.api d a dep.role ds si dt ti dtid desc
          rw [hp] at hpay
          simp at hpay
        | some p =>
          have hcf := (buildDevUpdate_some_fields st.api d a dep.role ds si dt ti dtid
            true desc p hpay.symm).2
          exact devInv_update_stamp st P a p ⟨hinv.1, hinv.2.1, hinv.2.2.1, hinv.2.2.2⟩
            hfresh (by simpa using hcf) hfind
    | none =>
      cases hnt : findNameTenant st.snap a dep.tenant with
      | error e => simp [syncDevice, hfind, hfind2, hnt, Except.bind, bind] at hok
      | ok hit =>
        cases hcs : createSubscripts dep.devType dep.siteArg with
        | error e => simp [syncDevice, hfind, hfind2, hnt, hcs, Except.bind, bind] at hok
        | ok cv =>
          obtain ⟨dtid, sf⟩ := cv
          rw [syncDevice_create desc dep a st hit dtid sf hfind hfind2 hnt hcs] at hok
          injection hok with hok2
          subst hok2
          exact devInv_create st P a _ ⟨hinv.1, hinv.2.1, hinv.2.2.1, hinv.2.2.2⟩
            hfresh rfl rfl hfind

/-- The whole device stage preserves the invariant, even when a raised
`TypeError` aborts it mid-stage. -/
theorem devInv_syncDevices (desc : String) :
    ∀ (items : List (DevDeps × Asset)) (st : DevState) (P : List Nat),
      DevInv st P → (∀ x ∈ items, x.2.id ∉ P) →
      (items.map (fun x => x.2.id)).Nodup →
      ∃ Q, DevInv (syncDevices desc items st).1 Q := by
  intro items
  induction items with
  | nil =>
    intro st P hinv _ _
    exact ⟨P, hinv⟩
  | cons x rest ih =>
    intro st P hinv hni hnd
    obtain ⟨dep, a⟩ := x
    cases hok : syncDevice desc dep a st with
    | error e =>
      simp only [syncDevices, hok]
      exact ⟨P, hinv⟩
    | ok st1 =>
      have hnd2 : a.id ∉ rest.map (fun z => z.2.id) ∧
          (rest.map (fun z => z.2.id)).Nodup := by
        rw [List.map_cons] at hnd
        exact List.nodup_cons.mp hnd
      simp only [syncDevices, hok]
      apply ih st1 (P ++ [a.id])
      · exact devInv_syncDevice desc dep a st st1 P hinv (hni (dep, a) (by simp)) hok
      · intro y hy hmem
        rcases List.mem_append.mp hmem with hP | hone
        · exact hni y (List.mem_cons_of_mem _ hy) hP
        · have hya : y.2.id = a.id := by simpa using hone
          exact hnd2.1 (hya ▸ List.mem_map_of_mem (fun z => z.2.id) hy)
      · exact hnd2.2

/-- C8 amended: after any device-stage run over assets with pairwise-distinct
ids, starting from a store whose snapshot is fresh, whose ids are
duplicate-free and whose linkage keys are unique, every linkage-key value is
still carried by at most one device; and a device matched by linkage key is
never re-stamped (its update payload carries no custom-field key).  The
original stability half of the claim is refuted by `c8_counterexample`:
a tag- or name-matched target is stamped with the new source id even when it
already carried a different one. -/
theorem c8_linkage_amended (desc : String) (items : List (DevDeps × Asset)) (st : DevState)
    (hsnap : st.snap = st.api)
    (hids : (st.api.map (fun d2 => d2.id)).Nodup)
    (hbound : ∀ d ∈ st.api, d.id < st.nextId)
    (hcf : ∀ v, cfCount st.api v ≤ 1)
    (hnodup : (items.map (fun x => x.2.id)).Nodup) :
    (∀ v, cfCount (syncDevices desc items st).1.api v ≤ 1) ∧
    (∀ (api : List NbDevice) (d : NbDevice) (a : Asset) (role : NbRole) (sa : SiteArg)
      (ten dtO : Option Nat) (p : DevUpdate),
      updateDevice api d a role sa ten dtO false desc = .ok (some p) →
      p.custom_fields = none) := by
  constructor
  · have hinv : DevInv st [] := by
      refine ⟨hids, hbound, hcf, ?_⟩
      intro d hd v hv
      exact Or.inl ⟨d, by rw [hsnap]; exact hd, rfl, hv⟩
    obtain ⟨Q, hQ⟩ := devInv_syncDevices desc items st [] hinv (by simp) hnodup
    exact hQ.2.2.1
  · intro api d a role sa ten dtO p h
    obtain ⟨ds, si, dt, ti, dtid, hsub, hpay⟩ :=
      updateDevice_ok_elim api d a role sa ten dtO false desc (some p) h
    have := (buildDevUpdate_some_fields api d a role ds si dt ti dtid false desc p hpay.symm).2
    simpa using this

/-- Witness for `c8_linkage_amended` at a concrete input. -/
theorem c8_linkage_amended_witness :
    cfCount (syncDevices "d"
      [(⟨some 40, some 30, ⟨20, "R", some 5⟩, SiteArg.ref 7⟩,
        ⟨1, "PC", "T1", "s", "n", ⟨5, "Cat"⟩, 3, none, none, none⟩)]
      ⟨[], [], 0⟩).1.api 1 ≤ 1 := by
  have h := c8_linkage_amended "d"
    [(⟨some 40, some 30, ⟨20, "R", some 5⟩, SiteArg.ref 7⟩,
      ⟨1, "PC", "T1", "s", "n", ⟨5, "Cat"⟩, 3, none, none, none⟩)]
    ⟨[], [], 0⟩ rfl (by simp) (by simp) (fun v => by simp [cfCount]) (by simp)
  exact h.1 1

/-- The name-and-tenant scan only looks at the asset's name. -/
theorem findNameTenant_name_eq (l : List NbDevice) (a1 a2 : Asset) (t : Option Nat)
    (h : a1.name = a2.name) : findNameTenant l a1 t = findNameTenant l a2 t := by
  induction l with
  | nil => rfl
  | cons d rest ih => simp only [findNameTenant, h, ih]

/-- A scan that found nothing in a prefix continues in the suffix. -/
theorem findNameTenant_append_of_false (l1 l2 : List NbDevice) (a : Asset) (t : Option Nat)
    (h : findNameTenant l1 a t = .ok false) :
    findNameTenant (l1 ++ l2) a t = findNameTenant l2 a t := by
  induction l1 with
  | nil => rfl
  | cons d rest ih =>
    rw [List.cons_append]
    by_cases h1 : d.name = some a.name
    · by_cases h2 : d.tenant.isSome = true
      · cases t with
        | none =>
          simp [findNameTenant, h1, h2] at h
        | some tv =>
          by_cases h3 : d.tenant = some tv
          · simp [findNameTenant, h1, h2, h3] at h
          · simp only [findNameTenant, h1, h2, h3, eq_self_iff_true, if_true,
              Bool.false_eq_true, if_false] at h ⊢
            exact ih h
      · simp only [findNameTenant, h1, h2, eq_self_iff_true, if_true,
          Bool.false_eq_true, if_false] at h ⊢
        exact ih h
    · simp only [findNameTenant, h1, eq_self_iff_true, if_true,
        Bool.false_eq_true, if_false] at h ⊢
      exact ih h

/-- C3: device matching precedence, first hit wins.  (a) A linkage-key match
is updated in place: no create, and no linkage key anywhere in the store
changes.  (b) Otherwise an asset-tag match is updated with the linkage key
stamped now (the payload targets the matched device and carries the asset id
in the custom field).  (c) Otherwise a device is created, its name carrying
the asset tag appended exactly when a (name, tenant) collision was found.
(d) Hence two distinct source assets sharing (name, tenant) yield two
distinct target devices, the second with the tag appended to its name. -/
theorem c3_device_matching (desc : String) (dep : DevDeps) (a a2 : Asset)
    (st : DevState) (d : NbDevice) (hit : Bool) (dtid : Nat) (sf : Option Nat) (tv : Nat) :
    (st.snap.find? (fun x => x.cf = some a.id) = some d →
      ∀ st2, syncDevice desc dep a st = .ok st2 →
        st2.snap = st.snap ∧ st2.nextId = st.nextId ∧
        st2.api.map (fun x => x.cf) = st.api.map (fun x => x.cf)) ∧
    (st.snap.find? (fun x => x.cf = some a.id) = none →
      st.snap.find? (fun x => x.asset_tag = some a.asset_tag) = some d →
      ∀ st2, syncDevice desc dep a st = .ok st2 →
        ∃ p, p.id = d.id ∧ p.custom_fields = some a.id ∧
          st2 = { st with api := applyDevUpdate p st.api }) ∧
    (st.snap.find? (fun x => x.cf = some a.id) = none →
      st.snap.find? (fun x => x.asset_tag = some a.asset_tag) = none →
      findNameTenant st.snap a dep.tenant = .ok hit →
      createSubscripts dep.devType dep.siteArg = .ok (dtid, sf) →
      syncDevice desc dep a st = .ok
        { api := st.api ++ [newDevice st.nextId a dep
            (if hit then a.name ++ " " ++ a.asset_tag else a.name) dtid sf]
          snap := st.snap ++ [newDevice st.nextId a dep
            (if hit then a.name ++ " " ++ a.asset_tag else a.name) dtid sf]
          nextId := st.nextId + 1 }) ∧
    (createSubscripts dep.devType dep.siteArg = .ok (dtid, sf) →
      st.snap.find? (fun x => x.cf = some a.id) = none →
      st.snap.find? (fun x => x.asset_tag = some a.asset_tag) = none →
      findNameTenant st.snap a dep.tenant = .ok false →
      a2.id ≠ a.id →
      st.snap.find? (fun x => x.cf = some a2.id) = none →
      a2.asset_tag ≠ a.asset_tag →
      st.snap.find? (fun x => x.asset_tag = some a2.asset_tag) = none →
      a2.name = a.name →
      dep.tenant = some tv →
      syncDevices desc [(dep, a), (dep, a2)] st =
        ({ api := st.api ++ [newDevice st.nextId a dep a.name dtid sf,
             newDevice (st.nextId + 1) a2 dep (a2.name ++ " " ++ a2.asset_tag) dtid sf]
           snap := st.snap ++ [newDevice st.nextId a dep a.name dtid sf,
             newDevice (st.nextId + 1) a2 dep (a2.name ++ " " ++ a2.asset_tag) dtid sf]
           nextId := st.nextId + 2 }, true) ∧
        (newDevice st.nextId a dep a.name dtid sf).id ≠
          (newDevice (st.nextId + 1) a2 dep (a2.name ++ " " ++ a2.asset_tag) dtid sf).id ∧
        (newDevice (st.nextId + 1) a2 dep
          (a2.name ++ " " ++ a2.asset_tag) dtid sf).name =
          some (a2.name ++ " " ++ a2.asset_tag)) := by
  refine ⟨?_, ?_, ?_, ?_⟩
  · intro hfind st2 hok
    cases hv : devSubscripts d dep.siteArg dep.tenant dep.devType with
    | error e =>
      simp [syncDevice, hfind, updateDevice, hv, Except.bind, bind] at hok
    | ok v =>
      rw [syncDevice_keymatch desc dep a st d v hfind hv] at hok
      injection hok with hok2
      subst hok2
      cases hpay : buildDevUpdate st.api d a dep.role
          v.1 v.2.1 v.2.2.1 v.2.2.2.1 v.2.2.2.2 false desc with
      | none => simp [applyPayOpt, hpay]
      | some p =>
        have hcf := (buildDevUpdate_some_fields st.api d a dep.role
          v.1 v.2.1 v.2.2.1 v.2.2.2.1 v.2.2.2.2 false desc p hpay).2
        simp only [applyPayOpt, hpay]
        exact ⟨trivial, trivial, applyDevUpdate_map_cf_none p (by simpa using hcf) st.api⟩
  · intro hfind htag st2 hok
    cases hv : devSubscripts d dep.siteArg dep.tenant dep.devType with
    | error e =>
      simp [syncDevice, hfind, htag, updateDevice, hv, Except.bind, bind] at hok
    | ok v =>
      rw [syncDevice_tagmatch desc dep a st d v hfind htag hv] at hok
      injection hok with hok2
      obtain ⟨p, hp⟩ := buildDevUpdate_true_some st.api d a dep.role
        v.1 v.2.1 v.2.2.1 v.2.2.2.1 v.2.2.2.2 desc
      have hfields := buildDevUpdate_some_fields st.api d a dep.role
        v.1 v.2.1 v.2.2.1 v.2.2.2.1 v.2.2.2.2 true desc p hp
      refine ⟨p, hfields.1, by simpa using hfields.2, ?_⟩
      rw [← hok2]
      simp [applyPayOpt, hp]
  · intro hfind htag hnt hcs
    exact syncDevice_create desc dep a st hit dtid sf hfind htag hnt hcs
  · intro hcs h1cf h1tag h1nt hneid h2cf hnetag h2tag hname hten
    have hneid2 : a.id ≠ a2.id := Ne.symm hneid
    have hnetag2 : a.asset_tag ≠ a2.asset_tag := Ne.symm hnetag
    have hstep1 : syncDevice desc dep a st = .ok
        ⟨st.api ++ [newDevice st.nextId a dep a.name dtid sf],
         st.snap ++ [newDevice st.nextId a dep a.name dtid sf],
         st.nextId + 1⟩ := by
      simpa using syncDevice_create desc dep a st false dtid sf h1cf h1tag h1nt hcs
    have hf1 : (st.snap ++ [newDevice st.nextId a dep a.name dtid sf]).find?
        (fun x => x.cf = some a2.id) = none := by
      rw [List.find?_append, h2cf]
      simp [List.find?, newDevice, hneid2]
    have hf2 : (st.snap ++ [newDevice st.nextId a dep a.name dtid sf]).find?
        (fun x => x.asset_tag = some a2.asset_tag) = none := by
      rw [List.find?_append, h2tag]
      simp [List.find?, newDevice, hnetag2]
    have hnt1 : findNameTenant
        (st.snap ++ [newDevice st.nextId a dep a.name dtid sf]) a2 dep.tenant =
        .ok true := by
      have e0 : findNameTenant st.snap a2 dep.tenant = .ok false := by
        rw [findNameTenant_name_eq st.snap a2 a dep.tenant hname]
        exact h1nt
      rw [findNameTenant_append_of_false st.snap _ a2 dep.tenant e0]
      simp [findNameTenant, newDevice, hname, hten]
    have hstep2 : syncDevice desc dep a2
        ⟨st.api ++ [newDevice st.nextId a dep a.name dtid sf],
         st.snap ++ [newDevice st.nextId a dep a.name dtid sf],
         st.nextId + 1⟩ = .ok
        ⟨(st.api ++ [newDevice st.nextId a dep a.name dtid sf]) ++
           [newDevice (st.nextId + 1) a2 dep (a2.name ++ " " ++ a2.asset_tag) dtid sf],
         (st.snap ++ [newDevice st.nextId a dep a.name dtid sf]) ++
           [newDevice (st.nextId + 1) a2 dep (a2.name ++ " " ++ a2.asset_tag) dtid sf],
         st.nextId + 1 + 1⟩ := by
      simpa using syncDevice_create desc dep a2
        ⟨st.api ++ [newDevice st.nextId a dep a.name dtid sf],
         st.snap ++ [newDevice st.nextId a dep a.name dtid sf],
         st.nextId + 1⟩ true dtid sf hf1 hf2 hnt1 hcs
    refine ⟨?_, ?_, rfl⟩
    · simp only [syncDevices, hstep1, hstep2]
      rw [List.append_assoc, List.append_assoc]
      norm_num
    · simp [newDevice]

/-- Witness for `c3_device_matching`: two assets sharing name "PC" and the
same tenant produce two devices, the second named with its tag appended. -/
theorem c3_device_matching_witness :
    syncDevices "d" [(⟨some 40, some 30, ⟨20, "R", some 5⟩, SiteArg.ref 7⟩,
        ⟨1, "PC", "T1", "s", "n", ⟨5, "Cat"⟩, 3, none, none, none⟩),
      (⟨some 40, some 30, ⟨20, "R", some 5⟩, SiteArg.ref 7⟩,
        ⟨2, "PC", "T2", "s", "n", ⟨5, "Cat"⟩, 3, none, none, none⟩)] ⟨[], [], 11⟩ =
      ({ api := [newDevice 11 ⟨1, "PC", "T1", "s", "n", ⟨5, "Cat"⟩, 3, none, none, none⟩
            ⟨some 40, some 30, ⟨20, "R", some 5⟩, SiteArg.ref 7⟩ "PC" 40 (some 7),
          newDevice 12 ⟨2, "PC", "T2", "s", "n", ⟨5, "Cat"⟩, 3, none, none, none⟩
            ⟨some 40, some 30, ⟨20, "R", some 5⟩, SiteArg.ref 7⟩ "PC T2" 40 (some 7)]
         snap := [newDevice 11 ⟨1, "PC", "T1", "s", "n", ⟨5, "Cat"⟩, 3, none, none, none⟩
            ⟨some 40, some 30, ⟨20, "R", some 5⟩, SiteArg.ref 7⟩ "PC" 40 (some 7),
          newDevice 12 ⟨2, "PC", "T2", "s", "n", ⟨5, "Cat"⟩, 3, none, none, none⟩
            ⟨some 40, some 30, ⟨20, "R", some 5⟩, SiteArg.ref 7⟩ "PC T2" 40 (some 7)]
         nextId := 13 }, true) ∧
    (newDevice 11 ⟨1, "PC", "T1", "s", "n", ⟨5, "Cat"⟩, 3, none, none, none⟩
      ⟨some 40, some 30, ⟨20, "R", some 5⟩, SiteArg.ref 7⟩ "PC" 40 (some 7)).id ≠
    (newDevice 12 ⟨2, "PC", "T2", "s", "n", ⟨5, "Cat"⟩, 3, none, none, none⟩
      ⟨some 40, some 30, ⟨20, "R", some 5⟩, SiteArg.ref 7⟩ "PC T2" 40 (some 7)).id ∧
    (newDevice 12 ⟨2, "PC", "T2", "s", "n", ⟨5, "Cat"⟩, 3, none, none, none⟩
      ⟨some 40, some 30, ⟨20, "R", some 5⟩, SiteArg.ref 7⟩ "PC T2" 40 (some 7)).name =
      some "PC T2" := by
  exact (c3_device_matching "d" ⟨some 40, some 30, ⟨20, "R", some 5⟩, SiteArg.ref 7⟩
    ⟨1, "PC", "T1", "s", "n", ⟨5, "Cat"⟩, 3, none, none, none⟩
    ⟨2, "PC", "T2", "s", "n", ⟨5, "Cat"⟩, 3, none, none, none⟩
    ⟨[], [], 11⟩ ⟨0, none, none, "", none, 0, none, 0, "", none⟩ false 40 (some 7) 30).2.2.2
    rfl rfl rfl rfl (by decide) rfl (by decide) rfl rfl rfl

/-- Witness for `c4_reconcile_table` at concrete inputs: unmatched records of
three kinds all classify as Create, matching the table's NotFound row. -/
theorem c4_reconcile_table_witness :
    tenantActionOf (tenantStep true true "d" [] ⟨1, "X"⟩) = SyncAction.create ∧
    (devtypeStep true true "d" [] [⟨5, "M", none⟩] ⟨3, "Mod", "pn", "n", ⟨7, "M"⟩⟩).map
      devtypeActionOf = .ok SyncAction.create ∧
    locationActionOf (syncLocationStep true true "d" [⟨1, "A", "", some 100⟩] [] [] 2
      ⟨101, "B", some ⟨100, "A"⟩⟩) = SyncAction.create := by
  have h := c4_reconcile_table true true "d" [] ⟨1, "X"⟩ [⟨5, "M", none⟩] ⟨2, "Y"⟩ []
    ⟨3, "Mod", "pn", "n", ⟨7, "M"⟩⟩ ⟨5, "M", none⟩ [⟨1, "A", "", some 100⟩] ⟨9, "T", none⟩
    [] [] 2 ⟨1, "A", "", some 100⟩ ⟨101, "B", some ⟨100, "A"⟩⟩
  refine ⟨?_, ?_, ?_⟩
  · rw [h.1]
    decide
  · rw [h.2.2.1 (by decide)]
    rw [show reconcileDecide (devtypeMatch [] ⟨3, "Mod", "pn", "n", ⟨7, "M"⟩⟩)
      (devtypeDiffEmpty [] ⟨5, "M", none⟩ ⟨3, "Mod", "pn", "n", ⟨7, "M"⟩⟩) true true =
      SyncAction.create from by decide]
  · rw [h.2.2.2.2 (by decide)]
    decide

/-- Witness for `c9_empty_name_update`: asset 1 has an empty name; the
linkage-key-matched device named "PC T1" has its tag suffix stripped for the
comparison, and only the differing serial would be written. -/
theorem c9_empty_name_update_witness :
    syncDevice "d" ⟨some 40, some 30, ⟨20, "R", some 5⟩, SiteArg.ref 7⟩
      ⟨1, "", "T1", "s", "n", ⟨5, "Cat"⟩, 3, none, none, none⟩
      ⟨[⟨10, some "PC T1", some "T1", "OLD", some 7, 20, some 30, 40, "c", some 1⟩],
       [⟨10, some "PC T1", some "T1", "OLD", some 7, 20, some 30, 40, "c", some 1⟩], 11⟩ =
      .ok (applyPayOpt (buildDevUpdate
        [⟨10, some "PC T1", some "T1", "OLD", some 7, 20, some 30, 40, "c", some 1⟩]
        ⟨10, some "PC T1", some "T1", "OLD", some 7, 20, some 30, 40, "c", some 1⟩
        ⟨1, "", "T1", "s", "n", ⟨5, "Cat"⟩, 3, none, none, none⟩
        ⟨20, "R", some 5⟩ 7 7 30 30 40 false "d")
        ⟨[⟨10, some "PC T1", some "T1", "OLD", some 7, 20, some 30, 40, "c", some 1⟩],
         [⟨10, some "PC T1", some "T1", "OLD", some 7, 20, some 30, 40, "c", some 1⟩], 11⟩) ∧
    strippedOldName (some "PC T1") "T1" = some "PC" := by
  have h := c9_empty_name_update "d" ⟨some 40, some 30, ⟨20, "R", some 5⟩, SiteArg.ref 7⟩
    ⟨1, "", "T1", "s", "n", ⟨5, "Cat"⟩, 3, none, none, none⟩
    ⟨[⟨10, some "PC T1", some "T1", "OLD", some 7, 20, some 30, 40, "c", some 1⟩],
     [⟨10, some "PC T1", some "T1", "OLD", some 7, 20, some 30, 40, "c", some 1⟩], 11⟩
    ⟨10, some "PC T1", some "T1", "OLD", some 7, 20, some 30, 40, "c", some 1⟩
    7 7 30 30 40 (by decide) rfl rfl rfl rfl rfl rfl
  refine ⟨h.1, ?_⟩
  exact h.2.2 (by decide) "PC" (by decide) (by decide)
